import Mathlib

/-!
Verification development for the MagTag SSD1680 e-paper driver stack.

Shallow embedding of the Python sources:
  - modules/drivers/state.py     (DriverState refresh state machine)
  - modules/drivers/ssd1680.py   (SSD1680 panel driver, wire-command trace)
  - modules/drivers/sequences.py, commands.py (constants)
  - modules/buffer/framebuffer.py, draw.py    (pixel buffer and shapes)
  - modules/text/renderer.py, bf2.py          (text measurement)

The SPI transport is modelled as a trace of emitted events: every
write_command appends one event, hardware_reset appends a reset event,
wait_ready and fixed delays emit nothing (they write no SPI bytes).
-/

namespace Magtag

/-! DisplayState constants (state.py lines 33 to 36). -/

def UNINITIALIZED : Nat := 0
def READY : Nat := 1
def UPDATING : Nat := 2
def SLEEPING : Nat := 3

/-- DriverState container (state.py lines 63 to 93).  Python ints that the
driver only ever keeps non-negative are modelled as Nat. -/
structure DriverState where
  state : Nat
  has_basemap : Bool
  partial_count : Nat
  partial_threshold : Nat
  in_partial_mode : Bool
  is_initial : Bool
deriving Repr, DecidableEq

/-- Constructor defaults (state.py lines 79 to 93). -/
def DriverState.init : DriverState :=
  { state := UNINITIALIZED, has_basemap := false, partial_count := 0,
    partial_threshold := 10, in_partial_mode := false, is_initial := true }

/-- state.py lines 95 to 99: reset after hardware reset. -/
def DriverState.reset (s : DriverState) : DriverState :=
  { s with state := UNINITIALIZED, in_partial_mode := false }

/-- state.py lines 101 to 103. -/
def DriverState.on_init_complete (s : DriverState) : DriverState :=
  { s with state := READY }

/-- state.py lines 105 to 111. -/
def DriverState.on_full_refresh_complete (s : DriverState) : DriverState :=
  { s with state := READY, has_basemap := true, is_initial := false,
           partial_count := 0, in_partial_mode := false }

/-- state.py lines 113 to 116. -/
def DriverState.on_partial_refresh_complete (s : DriverState) : DriverState :=
  { s with state := READY, partial_count := s.partial_count + 1 }

/-- state.py lines 118 to 123. -/
def DriverState.on_sleep (s : DriverState) (retain_ram : Bool) : DriverState :=
  { s with state := SLEEPING, in_partial_mode := false,
           has_basemap := if retain_ram then s.has_basemap else false }

/-- state.py lines 125 to 128. -/
def DriverState.on_wake (s : DriverState) : DriverState :=
  { s with state := UNINITIALIZED, in_partial_mode := false }

/-- state.py lines 130 to 137. -/
def DriverState.needs_full_refresh (s : DriverState) : Bool :=
  s.is_initial || !s.has_basemap ||
    (decide (0 < s.partial_threshold) && decide (s.partial_threshold ≤ s.partial_count))

/-- state.py lines 139 to 141. -/
def DriverState.can_partial_refresh (s : DriverState) : Bool :=
  s.has_basemap && !s.is_initial

def DriverState.is_sleeping (s : DriverState) : Bool := s.state == SLEEPING

def DriverState.is_ready (s : DriverState) : Bool := s.state == READY

/-! Command opcodes (commands.py). -/

def CMD_DRIVER_OUTPUT : Nat := 0x01
def CMD_SOFT_START : Nat := 0x0C
def CMD_DATA_ENTRY : Nat := 0x11
def CMD_SW_RESET : Nat := 0x12
def CMD_DEEP_SLEEP : Nat := 0x10
def CMD_TEMP_SENSOR : Nat := 0x18
def CMD_LUT : Nat := 0x32
def CMD_ACTIVATE : Nat := 0x20
def CMD_UPDATE_CTRL1 : Nat := 0x21
def CMD_UPDATE_CTRL2 : Nat := 0x22
def CMD_RAM_BLACK : Nat := 0x24
def CMD_RAM_RED : Nat := 0x26
def CMD_BORDER : Nat := 0x3C
def CMD_VGH : Nat := 0x03
def CMD_VSH_VSL : Nat := 0x04
def CMD_VCOM : Nat := 0x2C
def CMD_RAM_X : Nat := 0x44
def CMD_RAM_Y : Nat := 0x45
def CMD_RAM_X_CNT : Nat := 0x4E
def CMD_RAM_Y_CNT : Nat := 0x4F

/-! Update sequences and configuration constants (sequences.py).
SEQ_PARTIAL and BORDER_PARTIAL from the source carry a MODE2 suffix here. -/

def SEQ_FULL : Nat := 0xF7
def SEQ_CUSTOM_LUT : Nat := 0xC7
def SEQ_PARTIAL_MODE2 : Nat := 0xFC
def SEQ_POWER_ON : Nat := 0xE0
def SEQ_POWER_OFF : Nat := 0x83
def SEQ_LOAD_TEMP : Nat := 0xB1
def SLEEP_MODE_1 : Nat := 0x01
def SLEEP_MODE_2 : Nat := 0x03
def DEFAULT_VGH : Nat := 0x17
def DEFAULT_VSH1 : Nat := 0x41
def DEFAULT_VSH2 : Nat := 0xA8
def DEFAULT_VSL : Nat := 0x32
def DEFAULT_VCOM : Nat := 0x50
def TEMP_SENSOR_INTERNAL : Nat := 0x80
def TEMP_MIN : Nat := 0
def TEMP_MAX : Nat := 50
def SOFT_START_DEFAULT : List Nat := [0x8B, 0x9C, 0x96, 0x0F]
def BORDER_FULL : Nat := 0x05
def BORDER_PARTIAL_MODE2 : Nat := 0x80
def DATA_ENTRY_INC : Nat := 0x03

/-- LUT_4GRAY (lut.py lines 20 to 42), 153 bytes. -/
def LUT_4GRAY : List Nat :=
  [0x2A, 0x60, 0x15, 0, 0, 0, 0, 0, 0, 0, 0, 0,
   0x20, 0x60, 0x10, 0, 0, 0, 0, 0, 0, 0, 0, 0,
   0x28, 0x60, 0x14, 0, 0, 0, 0, 0, 0, 0, 0, 0,
   0x00, 0x60, 0x00, 0, 0, 0, 0, 0, 0, 0, 0, 0,
   0x00, 0x90, 0x00, 0, 0, 0, 0, 0, 0, 0, 0, 0,
   0x00, 0x02, 0x00, 0x05, 0x14, 0x00, 0x00,
   0x1E, 0x1E, 0x00, 0x00, 0x00, 0x00, 0x01,
   0x00, 0x02, 0x00, 0x05, 0x14, 0x00, 0x00,
   0, 0, 0, 0, 0, 0, 0,
   0, 0, 0, 0, 0, 0, 0,
   0, 0, 0, 0, 0, 0, 0,
   0, 0, 0, 0, 0, 0, 0,
   0, 0, 0, 0, 0, 0, 0,
   0, 0, 0, 0, 0, 0, 0,
   0, 0, 0, 0, 0, 0, 0,
   0, 0, 0, 0, 0, 0, 0,
   0, 0, 0, 0, 0, 0, 0,
   0x24, 0x22, 0x22, 0x22, 0x23, 0x32, 0x00, 0x00, 0x00]

/-! SSD1680 driver model (ssd1680.py).  The transport is a trace of events. -/

/-- One transport event: a command byte with its data bytes, or a hardware
reset pulse on the RST line. -/
inductive Ev where
  | cmd (c : Nat) (data : List Nat)
  | reset
deriving Repr, DecidableEq

/-- Driver object: state machine, optional differential buffer, and the
trace of everything emitted on the transport. -/
structure Driver where
  st : DriverState
  prev : Option (List Nat)
  trace : List Ev
deriving Repr, DecidableEq

def WIDTH : Nat := 128
def HEIGHT : Nat := 296
def BUFFER_SIZE : Nat := 4736

/-- spi.write_command: appends one event to the trace. -/
def wcmd (d : Driver) (c : Nat) (data : List Nat) : Driver :=
  { d with trace := d.trace ++ [Ev.cmd c data] }

/-- spi.hardware_reset: appends a reset event. -/
def hwreset (d : Driver) : Driver :=
  { d with trace := d.trace ++ [Ev.reset] }

/-- Python truthiness of an optional byte string (None and empty are falsy). -/
def truthy : Option (List Nat) → Bool
  | none => false
  | some l => !l.isEmpty

/-- ssd1680.py lines 113 to 160, _init_full.  wait_ready emits nothing. -/
def Driver.initFullMode (d : Driver) : Driver :=
  let d := if d.st.is_sleeping then
    let d := hwreset d
    { d with st := d.st.on_wake }
  else d
  if d.st.state == READY && !d.st.in_partial_mode then d
  else
    let h := HEIGHT - 1
    let d := wcmd d CMD_SW_RESET []
    let d := wcmd d CMD_DRIVER_OUTPUT [h % 256, h / 256, 0x00]
    let d := wcmd d CMD_DATA_ENTRY [DATA_ENTRY_INC]
    let d := wcmd d CMD_RAM_X [0x00, WIDTH / 8 - 1]
    let d := wcmd d CMD_RAM_Y [0x00, 0x00, h % 256, h / 256]
    let d := wcmd d CMD_BORDER [BORDER_FULL]
    let d := wcmd d CMD_UPDATE_CTRL1 [0x00, 0x80]
    let d := wcmd d CMD_TEMP_SENSOR [TEMP_SENSOR_INTERNAL]
    let d := wcmd d CMD_SOFT_START SOFT_START_DEFAULT
    let d := wcmd d CMD_RAM_X_CNT [0x00]
    let d := wcmd d CMD_RAM_Y_CNT [0x00, 0x00]
    { d with st := { d.st.on_init_complete with in_partial_mode := false } }

/-- ssd1680.py lines 204 to 215, _set_window.  The Python defaults
`w = w or self.WIDTH` and `h = h or self.HEIGHT` replace 0 (and None)
by the full dimension. -/
def Driver.setWindow (d : Driver) (x y w h : Nat) : Driver :=
  let w := if w = 0 then WIDTH else w
  let h := if h = 0 then HEIGHT else h
  let x_bytes := x / 8
  let x_end := (x + w - 1) / 8
  let y_end := y + h - 1
  let d := wcmd d CMD_RAM_X [x_bytes, x_end]
  let d := wcmd d CMD_RAM_Y [y % 256, y / 256, y_end % 256, y_end / 256]
  let d := wcmd d CMD_RAM_X_CNT [x_bytes]
  wcmd d CMD_RAM_Y_CNT [y % 256, y / 256]

/-- ssd1680.py lines 162 to 202, _init_partial (w = 0 and h = 0 stand for
the Python None defaults, resolved by the `or` idiom). -/
def Driver.initPartialMode (d : Driver) (x y w h : Nat) : Driver :=
  let w := if w = 0 then WIDTH else w
  let h := if h = 0 then HEIGHT else h
  if d.st.in_partial_mode && !d.st.is_sleeping && d.st.is_ready then
    d.setWindow x y w h
  else if d.st.is_ready && !d.st.is_sleeping then
    let d := wcmd d CMD_BORDER [BORDER_PARTIAL_MODE2]
    let d := d.setWindow x y w h
    { d with st := { d.st with in_partial_mode := true } }
  else
    let d := hwreset d
    let d := { d with st := d.st.on_wake }
    let gh := HEIGHT - 1
    let d := wcmd d CMD_DRIVER_OUTPUT [gh % 256, gh / 256, 0x00]
    let d := wcmd d CMD_DATA_ENTRY [DATA_ENTRY_INC]
    let d := wcmd d CMD_BORDER [BORDER_PARTIAL_MODE2]
    let d := wcmd d CMD_UPDATE_CTRL1 [0x00, 0x80]
    let d := wcmd d CMD_TEMP_SENSOR [TEMP_SENSOR_INTERNAL]
    let d := wcmd d CMD_SOFT_START SOFT_START_DEFAULT
    let d := d.setWindow x y w h
    { d with st := { d.st.on_init_complete with in_partial_mode := true } }

/-- ssd1680.py lines 217 to 233, _update (the returned wait time is not
modelled; wait_ready emits nothing). -/
def Driver.updateSeq (d : Driver) (mode : Nat) : Driver :=
  let d := wcmd d CMD_UPDATE_CTRL2 [mode]
  wcmd d CMD_ACTIVATE []

/-- ssd1680.py lines 485 to 491, _power_off. -/
def Driver.powerOff (d : Driver) : Driver :=
  if d.st.is_sleeping then d
  else
    let d := wcmd d CMD_UPDATE_CTRL2 [SEQ_POWER_OFF]
    wcmd d CMD_ACTIVATE []

/-- ssd1680.py lines 459 to 468, sleep. -/
def Driver.sleep (d : Driver) (retain_ram : Bool) : Driver :=
  if d.st.is_sleeping then d
  else
    let d := d.powerOff
    let mode := if retain_ram then SLEEP_MODE_1 else SLEEP_MODE_2
    let d := wcmd d CMD_DEEP_SLEEP [mode]
    { d with st := d.st.on_sleep retain_ram }

/-- ssd1680.py lines 292 to 316, _display_full. -/
def Driver.displayFullPath (d : Driver) (data : List Nat)
    (lut : Option (List Nat)) (stay_awake : Bool) : Driver :=
  let d := d.initFullMode
  let d := match lut with
    | some l => wcmd d CMD_LUT l
    | none => d
  let d := wcmd d CMD_RAM_BLACK data
  let d := wcmd d CMD_RAM_RED data
  let mode := if truthy lut then SEQ_CUSTOM_LUT else SEQ_FULL
  let d := d.updateSeq mode
  let d := { d with st := d.st.on_full_refresh_complete }
  let d := if truthy d.prev then { d with prev := some data } else d
  if !stay_awake then d.sleep true else d

/-- ssd1680.py lines 318 to 352, _display_partial. -/
def Driver.displayPartialPath (d : Driver) (data : List Nat)
    (force_full : Bool) (lut : Option (List Nat)) (stay_awake : Bool) : Driver :=
  if d.st.needs_full_refresh || force_full then
    d.displayFullPath data lut stay_awake
  else
    let d := d.initPartialMode 0 0 0 0
    let d := d.setWindow 0 0 WIDTH HEIGHT
    let d := match lut with
      | some l => wcmd d CMD_LUT l
      | none => d
    let d := if truthy d.prev then wcmd d CMD_RAM_RED (d.prev.getD []) else d
    let d := wcmd d CMD_RAM_BLACK data
    let mode := if truthy lut then SEQ_CUSTOM_LUT else SEQ_PARTIAL_MODE2
    let d := d.updateSeq mode
    let d := if truthy d.prev then { d with prev := some data } else d
    let d := { d with st := d.st.on_partial_refresh_complete }
    if !stay_awake then d.sleep true else d

/-- ssd1680.py lines 260 to 290, display (buffer length validation then
dispatch; a ValueError is an Except.error). -/
def Driver.display (d : Driver) (data : List Nat)
    (full force_full stay_awake : Bool) : Except String Driver :=
  if data.length ≠ BUFFER_SIZE then
    .error "Buffer size mismatch"
  else if full then
    .ok (d.displayFullPath data none stay_awake)
  else
    .ok (d.displayPartialPath data force_full none stay_awake)

/-- ssd1680.py lines 384 to 397, _set_waveform. -/
def Driver.setWaveform (d : Driver) (lut : List Nat)
    (vgh vsh1 vsh2 vsl vcom : Nat) : Driver :=
  let d := wcmd d CMD_LUT (lut.take 153)
  let d := wcmd d CMD_VGH [vgh]
  let d := wcmd d CMD_VSH_VSL [vsh1, vsh2, vsl]
  wcmd d CMD_VCOM [vcom]

/-- ssd1680.py lines 359 to 382, display_lut. -/
def Driver.displayLut (d : Driver) (lut black : List Nat)
    (red : Option (List Nat))
    (vgh vsh1 vsh2 vsl vcom : Nat) : Driver :=
  let d := d.initFullMode
  let d := d.setWaveform lut vgh vsh1 vsh2 vsl vcom
  let d := wcmd d CMD_RAM_BLACK black
  let d := wcmd d CMD_RAM_RED (if truthy red then red.getD [] else black)
  let d := d.updateSeq SEQ_CUSTOM_LUT
  { d with st := { d.st with has_basemap := false } }

/-- ssd1680.py lines 354 to 357, display_gray. -/
def Driver.displayGray (d : Driver) (black_plane red_plane : List Nat) : Driver :=
  d.displayLut LUT_4GRAY black_plane (some red_plane)
    DEFAULT_VGH DEFAULT_VSH1 DEFAULT_VSH2 DEFAULT_VSL DEFAULT_VCOM

/-- One region argument of display_regions: (data, x, y, w, h). -/
structure Region where
  data : List Nat
  x : Nat
  y : Nat
  w : Nat
  h : Nat
deriving Repr, DecidableEq

/-- Replace l[at : at + vals.length] by vals (Python slice assignment with a
matching-length right-hand side). -/
def setSlice (l : List Nat) (at_ : Nat) (vals : List Nat) : List Nat :=
  l.take at_ ++ vals ++ l.drop (at_ + vals.length)

/-- The stale bytes of a region extracted row by row from the previous
frame at stride WIDTH/8 (ssd1680.py lines 432 to 436). -/
def oldRegionBytes (prev : List Nat) (x_byte w_byte y h stride : Nat) : List Nat :=
  ((List.range h).map fun row =>
    ((prev.drop ((y + row) * stride + x_byte)).take w_byte)).flatten

/-- Writing a region of new data back into the previous frame, row by row
(ssd1680.py lines 439 to 443). -/
def writeRegionBack (prev : List Nat) (data : List Nat)
    (x_byte w_byte y h stride : Nat) : List Nat :=
  (List.range h).foldl
    (fun p row => setSlice p ((y + row) * stride + x_byte)
      ((data.drop (row * w_byte)).take w_byte)) prev

/-- Loop body of display_regions for the regions list (ssd1680.py lines
422 to 448).  A raised ValueError is returned alongside the driver whose
trace and buffers keep every mutation made before the raise, matching the
Python object state after the exception propagates. -/
def Driver.processRegions (d : Driver) : List Region → Driver × Option String
  | [] => (d, none)
  | r :: rest =>
    if r.x % 8 ≠ 0 ∨ r.w % 8 ≠ 0 then
      (d, some "x and w must be multiples of 8")
    else
      let d := d.setWindow r.x r.y r.w r.h
      let x_byte := r.x / 8
      let w_byte := r.w / 8
      let stride := WIDTH / 8
      let d :=
        if truthy d.prev then
          let p := d.prev.getD []
          let d := wcmd d CMD_RAM_RED (oldRegionBytes p x_byte w_byte r.y r.h stride)
          { d with prev := some (writeRegionBack p r.data x_byte w_byte r.y r.h stride) }
        else d
      let d := wcmd d CMD_RAM_X_CNT [r.x / 8]
      let d := wcmd d CMD_RAM_Y_CNT [r.y % 256, r.y / 256]
      let d := wcmd d CMD_RAM_BLACK r.data
      d.processRegions rest

/-- ssd1680.py lines 410 to 453, display_regions.  The RuntimeError and
ValueError raises are modelled as the Option String component; the Driver
component carries the mutations done before any raise. -/
def Driver.displayRegions (d : Driver) (regions : List Region) :
    Driver × Option String :=
  if !d.st.has_basemap then
    (d, some "Must do full refresh first")
  else match regions with
  | [] => (d, none)
  | first :: _ =>
    let d := d.initPartialMode first.x first.y first.w first.h
    match d.processRegions regions with
    | (d, some e) => (d, some e)
    | (d, none) =>
      let d := d.updateSeq SEQ_PARTIAL_MODE2
      ({ d with st := d.st.on_partial_refresh_complete }, none)


/-! FrameBuffer model (modules/buffer/framebuffer.py) and DrawBuffer
(modules/buffer/draw.py).  Coordinates are Int (Python ints); Python
floor division // and >> k translate to Int.fdiv, and mod by a positive
constant to Int.emod (both agree with Python).  Each byte store goes
through writeByte, which also records the attempted byte index in the
wlog instrumentation field; the memory-safety claims are about wlog. -/

def BLACK : Nat := 0
def DARK_GRAY : Nat := 1
def LIGHT_GRAY : Nat := 2
def WHITE : Nat := 3

/-- Rotation table _ROTATION (framebuffer.py lines 57 to 62):
(swap_xy, flip_x, flip_y).  Rotations outside the table raise in Python;
theorems restrict to the four valid values. -/
def rotProps (rot : Nat) : Bool × Bool × Bool :=
  if rot = 90 then (true, true, false)
  else if rot = 180 then (false, true, true)
  else if rot = 270 then (true, false, true)
  else (false, false, false)

structure FB where
  phys_w : Nat
  phys_h : Nat
  depth : Nat
  rot : Nat
  buf : List Nat
  inverted : Bool
  wlog : List Int

/-- framebuffer.py line 119: self._row_bytes. -/
def FB.row_bytes (fb : FB) : Nat := (fb.phys_w * fb.depth + 7) / 8

/-- framebuffer.py lines 116 to 117: self._buffer_size. -/
def FB.buffer_size (fb : FB) : Nat := (fb.phys_w * fb.phys_h * fb.depth + 7) / 8

/-- framebuffer.py lines 128 to 134, _update_dimensions. -/
def FB.width (fb : FB) : Nat :=
  if fb.rot = 0 ∨ fb.rot = 180 then fb.phys_w else fb.phys_h

def FB.height (fb : FB) : Nat :=
  if fb.rot = 0 ∨ fb.rot = 180 then fb.phys_h else fb.phys_w

/-- One byte store buf[idx] = f(buf[idx]).  The index is logged; the store
itself is applied when in range (the safety theorems show the in-range
test never fails for the drawing primitives). -/
def writeByte (fb : FB) (idx : Int) (f : Nat → Nat) : FB :=
  { fb with
    wlog := fb.wlog ++ [idx]
    buf := if 0 ≤ idx ∧ idx.toNat < fb.buf.length then
             fb.buf.set idx.toNat (f (fb.buf.getD idx.toNat 0))
           else fb.buf }

/-- _BIT_MASKS[px & 7] (framebuffer.py line 54). -/
def bitMask (px : Int) : Nat := 1 <<< (7 - (px % 8).toNat)

/-- _INV_MASKS[px & 7] (framebuffer.py line 55). -/
def invMask (px : Int) : Nat := bitMask px ^^^ 255

/-- framebuffer.py lines 176 to 180, _set_pixel_1bit. -/
def FB.set_pixel_1bit (fb : FB) (px py : Int) (color : Nat) : FB :=
  let idx := py * (fb.row_bytes : Int) + Int.fdiv px 8
  if color ≠ 0 then writeByte fb idx (fun b => b ||| bitMask px)
  else writeByte fb idx (fun b => b &&& invMask px)

/-- framebuffer.py lines 186 to 191, _set_pixel_2bit. -/
def FB.set_pixel_2bit (fb : FB) (px py : Int) (color : Nat) : FB :=
  let bit_off := (py * (fb.phys_w : Int) + px) * 2
  let byte_idx := Int.fdiv bit_off 8
  let bit_pos := (6 - bit_off % 8).toNat
  writeByte fb byte_idx
    (fun b => (b &&& ((3 <<< bit_pos) ^^^ 255)) ||| ((color &&& 3) <<< bit_pos))

/-- framebuffer.py lines 182 to 184, _get_pixel_1bit. -/
def FB.get_pixel_1bit (fb : FB) (px py : Int) : Nat :=
  let idx := py * (fb.row_bytes : Int) + Int.fdiv px 8
  if fb.buf.getD idx.toNat 0 &&& bitMask px ≠ 0 then WHITE else BLACK

/-- framebuffer.py lines 193 to 195, _get_pixel_2bit. -/
def FB.get_pixel_2bit (fb : FB) (px py : Int) : Nat :=
  let bit_off := (py * (fb.phys_w : Int) + px) * 2
  (fb.buf.getD (Int.fdiv bit_off 8).toNat 0 >>> (6 - bit_off % 8).toNat) &&& 3

/-- framebuffer.py lines 279 to 283, _effective_color. -/
def FB.effective_color (fb : FB) (color : Nat) : Nat :=
  if !fb.inverted then color
  else if fb.depth = 1 then (if color ≠ 0 then BLACK else WHITE)
  else 3 - color % 4

/-- framebuffer.py lines 213 to 223, pixel (bounds check, inline transform,
depth dispatch). -/
def FB.pixel (fb : FB) (x y : Int) (color : Nat) : FB :=
  if ¬(0 ≤ x ∧ x < (fb.width : Int) ∧ 0 ≤ y ∧ y < (fb.height : Int)) then fb
  else
    let p := rotProps fb.rot
    let xy := if p.1 then (y, x) else (x, y)
    let px := if p.2.1 then (fb.phys_w : Int) - 1 - xy.1 else xy.1
    let py := if p.2.2 then (fb.phys_h : Int) - 1 - xy.2 else xy.2
    let eff := fb.effective_color color
    if fb.depth = 1 then fb.set_pixel_1bit px py eff
    else fb.set_pixel_2bit px py eff

/-- framebuffer.py lines 225 to 233, get_pixel. -/
def FB.get_pixel (fb : FB) (x y : Int) : Nat :=
  if ¬(0 ≤ x ∧ x < (fb.width : Int) ∧ 0 ≤ y ∧ y < (fb.height : Int)) then WHITE
  else
    let p := rotProps fb.rot
    let xy := if p.1 then (y, x) else (x, y)
    let px := if p.2.1 then (fb.phys_w : Int) - 1 - xy.1 else xy.1
    let py := if p.2.2 then (fb.phys_h : Int) - 1 - xy.2 else xy.2
    if fb.depth = 1 then fb.get_pixel_1bit px py
    else fb.get_pixel_2bit px py

/-- framebuffer.py lines 235 to 244, pixel_fast (no bounds check). -/
def FB.pixel_fast (fb : FB) (x y : Int) (color : Nat) : FB :=
  let p := rotProps fb.rot
  let xy := if p.1 then (y, x) else (x, y)
  let px := if p.2.1 then (fb.phys_w : Int) - 1 - xy.1 else xy.1
  let py := if p.2.2 then (fb.phys_h : Int) - 1 - xy.2 else xy.2
  let eff := fb.effective_color color
  if fb.depth = 1 then fb.set_pixel_1bit px py eff
  else fb.set_pixel_2bit px py eff

/-- framebuffer.py lines 331 to 358, _hline_phys.  The Python slice
assignment that fills the middle bytes is modelled byte by byte. -/
def FB.hline_phys (fb : FB) (px py len0 : Int) (color : Nat) : FB :=
  if fb.depth = 2 then
    (List.range len0.toNat).foldl
      (fun f (i : Nat) => f.set_pixel_2bit (px + (i : Int)) py color) fb
  else
    let row := py * (fb.row_bytes : Int)
    let e := px + len0
    let b0 := Int.fdiv px 8
    let b1 := Int.fdiv (e - 1) 8
    let bit1 := ((e - 1) % 8).toNat
    if b0 = b1 then
      let mask := ((255 >>> (px % 8).toNat) &&& (255 <<< (7 - bit1))) &&& 255
      if color ≠ 0 then writeByte fb (row + b0) (fun b => b ||| mask)
      else writeByte fb (row + b0) (fun b => b &&& (mask ^^^ 255))
    else
      let start_mask := 255 >>> (px % 8).toNat
      let fb :=
        if color ≠ 0 then writeByte fb (row + b0) (fun b => b ||| start_mask)
        else writeByte fb (row + b0) (fun b => b &&& (start_mask ^^^ 255))
      let fb :=
        if b1 > b0 + 1 then
          (List.range (b1 - b0 - 1).toNat).foldl
            (fun f (k : Nat) => writeByte f (row + b0 + 1 + (k : Int))
              (fun _ => if color ≠ 0 then 255 else 0)) fb
        else fb
      let end_mask := (255 <<< (7 - bit1)) &&& 255
      if color ≠ 0 then writeByte fb (row + b1) (fun b => b ||| end_mask)
      else writeByte fb (row + b1) (fun b => b &&& (end_mask ^^^ 255))

/-- framebuffer.py lines 360 to 380, _vline_phys (the incrementing index
idx += row_bytes is written in closed form (py+k)*row_bytes + byte_col). -/
def FB.vline_phys (fb : FB) (px py len0 : Int) (color : Nat) : FB :=
  if fb.depth = 2 then
    (List.range len0.toNat).foldl
      (fun f (i : Nat) => f.set_pixel_2bit px (py + (i : Int)) color) fb
  else
    let byte_col := Int.fdiv px 8
    (List.range len0.toNat).foldl
      (fun f (k : Nat) =>
        let idx := (py + (k : Int)) * (fb.row_bytes : Int) + byte_col
        if color ≠ 0 then writeByte f idx (fun b => b ||| bitMask px)
        else writeByte f idx (fun b => b &&& invMask px)) fb

/-- framebuffer.py lines 293 to 311, hline (logical clip, rotation
resolution, delegate to the physical implementation). -/
def FB.hline (fb : FB) (x0 y len0 : Int) (color : Nat) : FB :=
  if len0 ≤ 0 ∨ y < 0 ∨ y ≥ (fb.height : Int) then fb
  else if x0 ≥ (fb.width : Int) ∨ x0 + len0 ≤ 0 then fb
  else
    let xl := if x0 < 0 then (0, len0 + x0) else (x0, len0)
    let x := xl.1
    let len1 := if x + xl.2 > (fb.width : Int) then (fb.width : Int) - x else xl.2
    if len1 ≤ 0 then fb
    else
      let eff := fb.effective_color color
      let p := rotProps fb.rot
      if p.1 then
        let px := if p.2.1 then (fb.phys_w : Int) - 1 - y else y
        let py := if p.2.2 then (fb.phys_h : Int) - x - len1 else x
        fb.vline_phys px py len1 eff
      else
        let px := if p.2.1 then (fb.phys_w : Int) - x - len1 else x
        let py := if p.2.2 then (fb.phys_h : Int) - 1 - y else y
        fb.hline_phys px py len1 eff

/-- framebuffer.py lines 313 to 329, vline. -/
def FB.vline (fb : FB) (x y0 len0 : Int) (color : Nat) : FB :=
  if len0 ≤ 0 ∨ x < 0 ∨ x ≥ (fb.width : Int) then fb
  else
    let yl := if y0 < 0 then (0, len0 + y0) else (y0, len0)
    let y := yl.1
    let len1 := if y + yl.2 > (fb.height : Int) then (fb.height : Int) - y else yl.2
    if len1 ≤ 0 then fb
    else
      let eff := fb.effective_color color
      let p := rotProps fb.rot
      if p.1 then
        let px := if p.2.1 then (fb.phys_w : Int) - y - len1 else y
        let py := if p.2.2 then (fb.phys_h : Int) - 1 - x else x
        fb.hline_phys px py len1 eff
      else
        let px := if p.2.1 then (fb.phys_w : Int) - 1 - x else x
        let py := if p.2.2 then (fb.phys_h : Int) - y - len1 else y
        fb.vline_phys px py len1 eff

/-- draw.py lines 136 to 154, fill_rect (pre-clip then one hline per row). -/
def FB.fill_rect (fb : FB) (x0 y0 w0 h0 : Int) (color : Nat) : FB :=
  let xw := if x0 < 0 then (0, w0 + x0) else (x0, w0)
  let yh := if y0 < 0 then (0, h0 + y0) else (y0, h0)
  let x := xw.1
  let y := yh.1
  let w := if x + xw.2 > (fb.width : Int) then (fb.width : Int) - x else xw.2
  let h := if y + yh.2 > (fb.height : Int) then (fb.height : Int) - y else yh.2
  if w ≤ 0 ∨ h ≤ 0 then fb
  else
    (List.range h.toNat).foldl (fun f (row : Nat) => f.hline x (y + (row : Int)) w color) fb

/-- draw.py lines 32 to 38, _compute_outcode (INSIDE 0, LEFT 1, RIGHT 2,
BOTTOM 4, TOP 8). -/
def outcode (xmin xmax ymin ymax x y : Int) : Nat :=
  (if x < xmin then 1 else if x > xmax then 2 else 0) |||
  (if y < ymin then 4 else if y > ymax then 8 else 0)

/-- draw.py lines 44 to 72, the Cohen-Sutherland clipping loop.  Each
iteration moves one endpoint onto a window boundary that is never violated
again, so at most four clips happen before the loop exits; the fuel of 8
used below is therefore never exhausted.  Fuel exhaustion returns none
(nothing is drawn), which can only under-approximate the pixel writes. -/
def clipLoop (xmin xmax ymin ymax : Int) :
    Nat → Int → Int → Int → Int → Option (Int × Int × Int × Int)
  | 0, _, _, _, _ => none
  | n + 1, x0, y0, x1, y1 =>
    let c0 := outcode xmin xmax ymin ymax x0 y0
    let c1 := outcode xmin xmax ymin ymax x1 y1
    if c0 ||| c1 = 0 then some (x0, y0, x1, y1)
    else if c0 &&& c1 ≠ 0 then none
    else
      let oc := if c0 ≠ 0 then c0 else c1
      let xy :=
        if oc &&& 8 ≠ 0 then
          (x0 + Int.fdiv ((x1 - x0) * (ymax - y0)) (y1 - y0), ymax)
        else if oc &&& 4 ≠ 0 then
          (x0 + Int.fdiv ((x1 - x0) * (ymin - y0)) (y1 - y0), ymin)
        else if oc &&& 2 ≠ 0 then
          (xmax, y0 + Int.fdiv ((y1 - y0) * (xmax - x0)) (x1 - x0))
        else
          (xmin, y0 + Int.fdiv ((y1 - y0) * (xmin - x0)) (x1 - x0))
      if oc = c0 then clipLoop xmin xmax ymin ymax n xy.1 xy.2 x1 y1
      else clipLoop xmin xmax ymin ymax n x0 y0 xy.1 xy.2

/-- Inner pixel plot of draw.py lines 101 to 119 (inline transform and
depth dispatch, using the loop variables of the Bresenham walk). -/
def FB.bresPlot (fb : FB) (steep : Bool) (x y : Int) (eff : Nat) : FB :=
  let l := if steep then (y, x) else (x, y)
  let p := rotProps fb.rot
  let q := if p.1 then (l.2, l.1) else (l.1, l.2)
  let px := if p.2.1 then (fb.phys_w : Int) - 1 - q.1 else q.1
  let py := if p.2.2 then (fb.phys_h : Int) - 1 - q.2 else q.2
  if fb.depth = 1 then fb.set_pixel_1bit px py eff
  else fb.set_pixel_2bit px py eff

/-- The Bresenham walk of draw.py lines 101 to 124 (for x in
range(x0, x1 + 1), fuel = number of iterations). -/
def bresLoop (steep : Bool) (eff : Nat) (dy dx ystep : Int) :
    Nat → Int → Int → Int → FB → FB
  | 0, _, _, _, fb => fb
  | n + 1, x, y, err, fb =>
    let fb := fb.bresPlot steep x y eff
    let e := err - dy
    if e < 0 then bresLoop steep eff dy dx ystep n (x + 1) (y + ystep) (e + dx) fb
    else bresLoop steep eff dy dx ystep n (x + 1) y e fb

/-- draw.py lines 20 to 124, line (Cohen-Sutherland clip, steep and
direction normalisation, Bresenham). -/
def FB.line (fb : FB) (ax ay bx by_ : Int) (color : Nat) : FB :=
  let xmax := (fb.width : Int) - 1
  let ymax := (fb.height : Int) - 1
  match clipLoop 0 xmax 0 ymax 8 ax ay bx by_ with
  | none => fb
  | some (cx0, cy0, cx1, cy1) =>
    let steep := (cy1 - cy0).natAbs > (cx1 - cx0).natAbs
    let s0 := if steep then (cy0, cx0, cy1, cx1) else (cx0, cy0, cx1, cy1)
    let s := if s0.1 > s0.2.2.1 then (s0.2.2.1, s0.2.2.2, s0.1, s0.2.1) else s0
    let x0 := s.1
    let y0 := s.2.1
    let x1 := s.2.2.1
    let y1 := s.2.2.2
    let dx := x1 - x0
    let dy := ((y1 - y0).natAbs : Int)
    let err := Int.fdiv dx 2
    let ystep : Int := if y0 < y1 then 1 else -1
    let eff := fb.effective_color color
    bresLoop steep eff dy dx ystep (x1 + 1 - x0).toNat x0 y0 err fb

/-- draw.py lines 320 to 355, _blit_1bit.  The source bitmap is modelled
as a total function from byte offsets; only stores into the owned buffer
are logged. -/
def FB.blit_1bit (fb : FB) (bmp : Nat → Nat) (eff : Nat)
    (w x y r_start r_end c_start c_end : Int) : FB :=
  let p := rotProps fb.rot
  let row_bytes := Int.fdiv (w + 7) 8
  if !p.1 then
    let dx_start := if p.2.1 then (fb.phys_w : Int) - 1 - x else x
    let dx_step : Int := if p.2.1 then -1 else 1
    let dy_start := if p.2.2 then (fb.phys_h : Int) - 1 - y else y
    let dy_step : Int := if p.2.2 then -1 else 1
    (List.range (r_end - r_start).toNat).foldl (fun f (k : Nat) =>
      let row := r_start + (k : Int)
      let py := dy_start + row * dy_step
      let bmp_off := row * row_bytes
      let row_off := py * (f.row_bytes : Int)
      (List.range (c_end - c_start).toNat).foldl (fun f (j : Nat) =>
        let col := c_start + (j : Int)
        if bmp (bmp_off + Int.fdiv col 8).toNat &&& (0x80 >>> (col % 8).toNat) = 0
        then f
        else
          let px := dx_start + col * dx_step
          let idx := row_off + Int.fdiv px 8
          if eff ≠ 0 then writeByte f idx (fun b => b ||| bitMask px)
          else writeByte f idx (fun b => b &&& invMask px)) f) fb
  else
    let dx_start := if p.2.1 then (fb.phys_w : Int) - 1 - y else y
    let dx_step : Int := if p.2.1 then -1 else 1
    let dy_start := if p.2.2 then (fb.phys_h : Int) - 1 - x else x
    let dy_step : Int := if p.2.2 then -1 else 1
    (List.range (r_end - r_start).toNat).foldl (fun f (k : Nat) =>
      let row := r_start + (k : Int)
      let px := dx_start + row * dx_step
      let bmp_off := row * row_bytes
      (List.range (c_end - c_start).toNat).foldl (fun f (j : Nat) =>
        let col := c_start + (j : Int)
        if bmp (bmp_off + Int.fdiv col 8).toNat &&& (0x80 >>> (col % 8).toNat) = 0
        then f
        else
          let py := dy_start + col * dy_step
          let idx := py * (f.row_bytes : Int) + Int.fdiv px 8
          if eff ≠ 0 then writeByte f idx (fun b => b ||| bitMask px)
          else writeByte f idx (fun b => b &&& invMask px)) f) fb

/-- draw.py lines 357 to 369, _blit_2bit (delegates to pixel_fast). -/
def FB.blit_2bit (fb : FB) (bmp : Nat → Nat) (eff : Nat)
    (w x y r_start r_end c_start c_end : Int) : FB :=
  let row_bytes := Int.fdiv (w + 7) 8
  (List.range (r_end - r_start).toNat).foldl (fun f (k : Nat) =>
    let row := r_start + (k : Int)
    let bmp_off := row * row_bytes
    (List.range (c_end - c_start).toNat).foldl (fun f (j : Nat) =>
      let col := c_start + (j : Int)
      if bmp (bmp_off + Int.fdiv col 8).toNat &&& (0x80 >>> (col % 8).toNat) ≠ 0
      then f.pixel_fast (x + col) (y + row) eff
      else f) f) fb

/-- draw.py lines 301 to 318, blit (early reject, clip, depth dispatch).
The effective color is taken from the blit context built at line 313. -/
def FB.blit (fb : FB) (bmp : Nat → Nat) (x y w h : Int) (color : Nat) : FB :=
  if x ≥ (fb.width : Int) ∨ y ≥ (fb.height : Int) ∨ x + w ≤ 0 ∨ y + h ≤ 0 then fb
  else
    let r_start := max 0 (-y)
    let r_end := min h ((fb.height : Int) - y)
    let c_start := max 0 (-x)
    let c_end := min w ((fb.width : Int) - x)
    if r_start ≥ r_end ∨ c_start ≥ c_end then fb
    else
      let eff := fb.effective_color color
      if fb.depth = 1 then fb.blit_1bit bmp eff w x y r_start r_end c_start c_end
      else fb.blit_2bit bmp eff w x y r_start r_end c_start c_end

/-! Lazy conversion LUTs (framebuffer.py lines 72 to 99) and to_planes
(lines 425 to 440). -/

/-- _LUT_MONO built by _init_luts. -/
def LUT_MONO : List Nat :=
  (List.range 256).map fun i =>
    (List.range 4).foldl (fun m p =>
      if 2 ≤ (i >>> (6 - 2 * p)) &&& 3 then m ||| (1 <<< (3 - p)) else m) 0

/-- _LUT_BLACK built by _init_luts (high bit of each 2-bit pixel). -/
def LUT_BLACK : List Nat :=
  (List.range 256).map fun i =>
    (List.range 4).foldl (fun m p =>
      if ((i >>> (6 - 2 * p)) &&& 3) >>> 1 &&& 1 ≠ 0 then m ||| (1 <<< (3 - p)) else m) 0

/-- _LUT_RED built by _init_luts (low bit of each 2-bit pixel). -/
def LUT_RED : List Nat :=
  (List.range 256).map fun i =>
    (List.range 4).foldl (fun m p =>
      if (i >>> (6 - 2 * p)) &&& 3 &&& 1 ≠ 0 then m ||| (1 <<< (3 - p)) else m) 0

/-- The plane assembly loop of to_planes for one LUT: plane[i//2] =
(lut[buf[i]] << 4) | lut[buf[i+1]] for even i < buffer_size. -/
def mkPlane (lut : List Nat) (buf : List Nat) : List Nat :=
  (List.range (buf.length / 2)).map fun j =>
    (lut.getD (buf.getD (2 * j) 0) 0 <<< 4) ||| lut.getD (buf.getD (2 * j + 1) 0) 0

/-- framebuffer.py lines 425 to 440, to_planes (2-bit only; the ValueError
for other depths is the error case). -/
def FB.to_planes (fb : FB) : Except String (List Nat × List Nat) :=
  if fb.depth ≠ 2 then .error "depth=2 required"
  else .ok (mkPlane LUT_BLACK fb.buf, mkPlane LUT_RED fb.buf)

/-- Bit p of a packed 1-bit plane, MSB first: (plane[p >> 3] >> (7 - p & 7)) & 1. -/
def planeBit (pl : List Nat) (p : Nat) : Nat :=
  (pl.getD (p / 8) 0 >>> (7 - p % 8)) &&& 1


/-! Text renderer model (modules/text/renderer.py and bf2.py).  A BF2 font
is modelled by its parsed header fields, its in-memory index (codepoint to
(width, offset), bf2.py lines 79 to 88) and its read function (bf2.py
lines 102 to 113, seek plus read of height * bpr bytes at an offset). -/

structure BF2FontM where
  height : Nat
  max_w : Nat
  def_w : Nat
  bpr : Nat
  prop : Bool
  index : Nat → Option (Nat × Nat)
  readData : Nat → List Nat

/-- A cached glyph: (bitmap_data, width, height, bytes_per_row)
(renderer.py line 250). -/
abbrev Glyph := List Nat × Nat × Nat × Nat

/-- The font-stack walk of _get_glyph (renderer.py lines 245 to 250):
first font containing the codepoint wins; non-proportional fonts advance
by max_w. -/
def resolveGlyph : List BF2FontM → Nat → Option Glyph
  | [], _ => none
  | f :: rest, cp =>
    match f.index cp with
    | some wo => some (f.readData wo.2, if f.prop then wo.1 else f.max_w, f.height, f.bpr)
    | none => resolveGlyph rest cp

/-- TextRenderer state: font stack and LRU glyph cache (front = least
recently used), with its byte budget (renderer.py lines 51 to 57). -/
structure TextRendererM where
  fonts : List BF2FontM
  cache : List (Nat × Glyph)
  cache_size : Nat
  cache_max : Nat

/-- The LRU eviction loop of renderer.py lines 253 to 256. -/
def evictLoop (sz cache_max : Nat) :
    List (Nat × Glyph) → Nat → List (Nat × Glyph) × Nat
  | [], size => ([], size)
  | e :: rest, size =>
    if cache_max < size + sz then evictLoop sz cache_max rest (size - e.2.1.length)
    else (e :: rest, size)

/-- renderer.py lines 234 to 261, _get_glyph with LRU caching
(move_to_end on hit, eviction plus insert on miss). -/
def getGlyph (r : TextRendererM) (cp : Nat) : Option Glyph × TextRendererM :=
  match (r.cache.find? fun e => e.1 == cp).map (fun e => e.2) with
  | some g =>
    (some g, { r with cache := (r.cache.filter fun e => e.1 ≠ cp) ++ [(cp, g)] })
  | none =>
    match resolveGlyph r.fonts cp with
    | none => (none, r)
    | some g =>
      let sz := g.1.length
      let cs := evictLoop sz r.cache_max r.cache r.cache_size
      (some g, { r with cache := cs.1 ++ [(cp, g)], cache_size := cs.2 + sz })

/-- The loop body of measure_width (renderer.py lines 152 to 154): add
(advance + 1) * scale for a resolved glyph, else default_width * scale. -/
def measureStep (scale fallback_w : Int) (acc : Int × TextRendererM)
    (ch : Nat) : Int × TextRendererM :=
  let gr := getGlyph acc.2 ch
  match gr.1 with
  | some g => (acc.1 + ((g.2.1 : Int) + 1) * scale, gr.2)
  | none => (acc.1 + fallback_w * scale, gr.2)

/-- renderer.py lines 136 to 155, measure_width.  Text is a list of
codepoints; the Python int result is an Int. -/
def measureWidth (r : TextRendererM) (text : List Nat) (scale : Int) :
    Int × TextRendererM :=
  match r.fonts with
  | [] => (0, r)
  | f0 :: _ =>
    if text.isEmpty then (0, r)
    else
      let fallback_w : Int := f0.def_w
      let wr := text.foldl (measureStep scale fallback_w) ((0 : Int), r)
      (wr.1 - scale, wr.2)

/-- The sum stated by the spec: over the characters, (advance + 1) * scale
when the font stack resolves the glyph, else default_width * scale of the
primary font. -/
def glyphAdvanceSum (fonts : List BF2FontM) (fallback_w : Nat)
    (text : List Nat) (scale : Int) : Int :=
  (text.map fun ch =>
    match resolveGlyph fonts ch with
    | some g => ((g.2.1 : Int) + 1) * scale
    | none => (fallback_w : Int) * scale).sum

/-! Temperature reading (ssd1680.py lines 537 to 565).  The pure
raw-to-Celsius conversion of the two bytes read from TEMP_READ; division
of a 12-bit two's-complement value by 16 is exact in binary floating
point, so the Python float arithmetic is modelled by rationals. -/

/-- The conversion in read_temperature: raw = (d[0] << 4) | (d[1] >> 4),
subtract 0x1000 if raw & 0x800, divide by 16.0. -/
def readTemperatureVal (d0 d1 : Nat) : ℚ :=
  let raw := (d0 <<< 4) ||| (d1 >>> 4)
  let v : Int := if raw &&& 0x800 ≠ 0 then (raw : Int) - 0x1000 else (raw : Int)
  (v : ℚ) / 16

/-- Modelled from the spec wording: the 12-bit value interpreted as two's
complement, subtracting 0x1000 exactly when bit 11 is set, divided by 16. -/
def tempSpecVal (d0 d1 : Nat) : ℚ :=
  let raw := (d0 <<< 4) ||| (d1 >>> 4)
  let v : Int := if raw.testBit 11 then (raw : Int) - 0x1000 else (raw : Int)
  (v : ℚ) / 16

/-- ssd1680.py lines 561 to 565, check_temperature in_range computation. -/
def checkTemperatureInRange (d0 d1 : Nat) : Bool :=
  let t := readTemperatureVal d0 d1
  decide ((TEMP_MIN : ℚ) ≤ t ∧ t ≤ (TEMP_MAX : ℚ))

/-! Reachable driver states (for the implicit basemap invariant).  The
generators are exactly the DriverState transitions of state.py plus
display_lut writing has_basemap = False directly (ssd1680.py line 380). -/

inductive Reach : DriverState → Prop where
  | start : Reach DriverState.init
  | hw_reset {s} : Reach s → Reach s.reset
  | init_complete {s} : Reach s → Reach s.on_init_complete
  | full_complete {s} : Reach s → Reach s.on_full_refresh_complete
  | part_complete {s} : Reach s → Reach s.on_partial_refresh_complete
  | sleep {s} (retain : Bool) : Reach s → Reach (s.on_sleep retain)
  | wake {s} : Reach s → Reach s.on_wake
  | lut_clear {s} : Reach s → Reach { s with has_basemap := false }

/-! Auxiliary definitions used by the theorem statements. -/

/-- The events a driver call appended to the trace (the call delta). -/
def traceDelta (d d2 : Driver) : List Ev := d2.trace.drop d.trace.length

def isActivateEv : Ev → Bool
  | .cmd c _ => c == CMD_ACTIVATE
  | .reset => false

def isRamWriteEv : Ev → Bool
  | .cmd c _ => c == CMD_RAM_BLACK || c == CMD_RAM_RED
  | .reset => false

/-- Sequencing of display(full := false) calls (each frame validated and
dispatched by Driver.display). -/
def runPartials (d : Driver) : List (List Nat) → Except String Driver
  | [] => .ok d
  | f :: fs =>
    match d.display f false false false with
    | .ok d2 => runPartials d2 fs
    | .error e => .error e

/-- Every glyph-cache entry agrees with the font-stack resolution (holds
for every cache the renderer ever builds, in particular the empty one). -/
def cacheOK (r : TextRendererM) : Prop :=
  ∀ e ∈ r.cache, resolveGlyph r.fonts e.1 = some e.2

/-- The four rotations accepted by the _ROTATION table. -/
def validRot (r : Nat) : Prop := r = 0 ∨ r = 90 ∨ r = 180 ∨ r = 270

/-- A logged byte index hits the owned buffer. -/
def inRange (fb : FB) (i : Int) : Prop := 0 ≤ i ∧ i < (fb.buffer_size : Int)

/-- Every logged write of the buffer landed inside it. -/
def wlogSafe (fb : FB) : Prop := ∀ i ∈ fb.wlog, inRange fb i

/-- A drawing step preserves the buffer geometry and only appends
in-range write indices to the log. -/
def LogExt (a b : FB) : Prop :=
  b.phys_w = a.phys_w ∧ b.phys_h = a.phys_h ∧ b.depth = a.depth ∧
  b.rot = a.rot ∧ ∀ i ∈ b.wlog, i ∈ a.wlog ∨ inRange a i

/-- A READY driver state holding a basemap (threshold 10, no partials yet). -/
def sampleReadyState : DriverState :=
  { state := READY, has_basemap := true, partial_count := 0,
    partial_threshold := 10, in_partial_mode := false, is_initial := true }

/-- A concrete driver in that state with an empty trace and no
differential buffer. -/
def sampleDriver : Driver :=
  { st := { sampleReadyState with is_initial := false }, prev := none, trace := [] }

/-- A misaligned region list: x = 4 is not a multiple of 8. -/
def cexRegions : List Region := [{ data := [], x := 4, y := 0, w := 8, h := 8 }]

/-- A concrete 296 x 128 1-bit framebuffer with an empty write log. -/
def sampleFB : FB :=
  { phys_w := 128, phys_h := 296, depth := 1, rot := 90,
    buf := List.replicate 4736 0, inverted := false, wlog := [] }



def isCtrl2Ev : Ev → Bool
  | .cmd c _ => c == CMD_UPDATE_CTRL2
  | .reset => false

/-- Two well-aligned regions. -/
def alignedRegions : List Region :=
  [{ data := List.replicate 32 0, x := 0, y := 0, w := 32, h := 8 },
   { data := List.replicate 32 255, x := 48, y := 4, w := 32, h := 8 }]


/-- A one-glyph proportional font (codepoint 65, width 4). -/
def sampleFont : BF2FontM :=
  { height := 8, max_w := 5, def_w := 6, bpr := 1, prop := true,
    index := fun cp => if cp = 65 then some (4, 0) else none,
    readData := fun _ => List.replicate 8 0 }

/-- A renderer with that single font and an empty glyph cache. -/
def sampleRenderer : TextRendererM :=
  { fonts := [sampleFont], cache := [], cache_size := 0, cache_max := 4096 }


/-- A small 2-bit framebuffer (8 x 2 pixels, 4 bytes). -/
def sampleFB2 : FB :=
  { phys_w := 8, phys_h := 2, depth := 2, rot := 0,
    buf := [27, 198, 0, 255], inverted := false, wlog := [] }

/-! Theorems. -/

/-- The basemap flag can only be set by on_full_refresh_complete, which
also clears is_initial; every other generator preserves or weakens it. -/
lemma reach_basemap_initial {s : DriverState} (h : Reach s) :
    s.has_basemap = true → s.is_initial = false := by
  induction h with
  | start => simp [DriverState.init]
  | hw_reset _ ih => simpa [DriverState.reset] using ih
  | init_complete _ ih => simpa [DriverState.on_init_complete] using ih
  | full_complete _ _ => simp [DriverState.on_full_refresh_complete]
  | part_complete _ ih => simpa [DriverState.on_partial_refresh_complete] using ih
  | sleep retain _ ih =>
    cases retain
    · simp [DriverState.on_sleep]
    · simpa [DriverState.on_sleep] using ih
  | wake _ ih => simpa [DriverState.on_wake] using ih
  | lut_clear _ _ => simp

/-- Claim C9: in every DriverState reachable from the initial state by the
driver state transitions (and display_lut clearing has_basemap),
has_basemap implies not is_initial, so can_partial_refresh() collapses to
has_basemap alone and a has_basemap-only guard is equivalent to it. -/
theorem c9_basemap_implies_not_initial (s : DriverState) (h : Reach s) :
    (s.has_basemap = true → s.is_initial = false) ∧
    s.can_partial_refresh = s.has_basemap := by
  refine ⟨reach_basemap_initial h, ?_⟩
  cases hb : s.has_basemap with
  | false => simp [DriverState.can_partial_refresh, hb]
  | true => simp [DriverState.can_partial_refresh, hb, reach_basemap_initial h hb]

/-- Witness for C9 at the state reached by a first full refresh. -/
theorem c9_basemap_implies_not_initial_witness :
    (DriverState.init.on_full_refresh_complete.has_basemap = true →
      DriverState.init.on_full_refresh_complete.is_initial = false) ∧
    DriverState.init.on_full_refresh_complete.can_partial_refresh =
      DriverState.init.on_full_refresh_complete.has_basemap :=
  c9_basemap_implies_not_initial _ (Reach.full_complete Reach.start)

/-- Claim C10: get_pixel outside the rotation-adjusted logical bounds
returns WHITE.  The model is a pure function of the buffer, so the call
cannot raise or mutate anything. -/
theorem c10_get_pixel_oob_white (fb : FB) (x y : Int)
    (h : ¬(0 ≤ x ∧ x < (fb.width : Int) ∧ 0 ≤ y ∧ y < (fb.height : Int))) :
    fb.get_pixel x y = WHITE := by
  unfold FB.get_pixel
  rw [if_pos h]

/-- Witness for C10: x = -1 on a concrete rotated buffer. -/
theorem c10_get_pixel_oob_white_witness :
    ¬((0 : Int) ≤ -1 ∧ (-1 : Int) < (sampleFB.width : Int) ∧
      (0 : Int) ≤ 0 ∧ (0 : Int) < (sampleFB.height : Int)) ∧
    sampleFB.get_pixel (-1) 0 = WHITE :=
  ⟨by decide, c10_get_pixel_oob_white sampleFB (-1) 0 (by decide)⟩

/-- raw &&& 0x800 tests exactly bit 11. -/
lemma and_bit11 (n : Nat) : n &&& 0x800 ≠ 0 ↔ n.testBit 11 = true := by
  have h := Nat.and_two_pow n 11
  rw [show (0x800 : Nat) = 2 ^ 11 from rfl, h]
  cases hb : n.testBit 11 <;> simp

/-- Claim C7: read_temperature packs raw = (d0 << 4) | (d1 >> 4),
interprets it as 12-bit two's complement (subtract 0x1000 when bit 11 is
set) and divides by 16; raw 0xFFF gives -0.0625, 0x320 gives 50.0, 0x000
gives 0.0, and check_temperature is in range exactly on [0, 50]. -/
theorem c7_read_temperature_conversion :
    (∀ d0 d1 : Nat, d0 < 256 → d1 < 256 →
      readTemperatureVal d0 d1 = tempSpecVal d0 d1) ∧
    readTemperatureVal 0xFF 0xF0 = -(1 / 16) ∧
    readTemperatureVal 0x32 0x00 = 50 ∧
    readTemperatureVal 0x00 0x00 = 0 ∧
    (∀ d0 d1 : Nat, checkTemperatureInRange d0 d1 = true ↔
      0 ≤ readTemperatureVal d0 d1 ∧ readTemperatureVal d0 d1 ≤ 50) := by
  refine ⟨?_, ?_, ?_, ?_, ?_⟩
  case refine_2 =>
    have hraw : (0xFF <<< 4 ||| 0xF0 >>> 4 : Nat) = 4095 := by decide
    simp only [readTemperatureVal, hraw]
    rw [if_pos (by decide : (4095 : Nat) &&& 0x800 ≠ 0)]
    norm_num
  case refine_3 =>
    have hraw : (0x32 <<< 4 ||| 0x00 >>> 4 : Nat) = 800 := by decide
    simp only [readTemperatureVal, hraw]
    rw [if_neg (by decide : ¬((800 : Nat) &&& 0x800 ≠ 0))]
    norm_num
  case refine_4 =>
    have hraw : (0x00 <<< 4 ||| 0x00 >>> 4 : Nat) = 0 := by decide
    simp only [readTemperatureVal, hraw]
    rw [if_neg (by decide : ¬((0 : Nat) &&& 0x800 ≠ 0))]
    norm_num
  · intro d0 d1 _ _
    simp only [readTemperatureVal, tempSpecVal]
    by_cases h : ((d0 <<< 4) ||| (d1 >>> 4)).testBit 11 = true
    · rw [if_pos ((and_bit11 _).2 h), if_pos h]
    · rw [if_neg (fun hc => h ((and_bit11 _).1 hc)), if_neg h]
  · intro d0 d1
    simp [checkTemperatureInRange, TEMP_MIN, TEMP_MAX]

/-- Witness for C7 at a concrete byte pair. -/
theorem c7_read_temperature_conversion_witness :
    ((0xFF : Nat) < 256 ∧ (0xF0 : Nat) < 256) ∧
    readTemperatureVal 0xFF 0xF0 = tempSpecVal 0xFF 0xF0 :=
  ⟨by decide, c7_read_temperature_conversion.1 0xFF 0xF0 (by decide) (by decide)⟩

/-- Counterexample to claim C2 as stated: the full-refresh path with a
supplied 153-byte LUT ends in on_full_refresh_complete, which sets
has_basemap to true; nothing clears it. -/
theorem c2_counterexample :
    (sampleDriver.displayFullPath (List.replicate 4736 0xFF) (some LUT_4GRAY)
      true).st.has_basemap = true := by
  rfl

/-- Claim C2, amended: after the public custom-LUT refreshes display_lut
and display_gray the driver state has has_basemap = false; the internal
full-refresh path with a supplied LUT instead re-establishes the basemap. -/
theorem c2_custom_lut_clears_basemap :
    (∀ (d : Driver) (lut black : List Nat) (red : Option (List Nat))
      (vgh vsh1 vsh2 vsl vcom : Nat),
      (d.displayLut lut black red vgh vsh1 vsh2 vsl vcom).st.has_basemap = false) ∧
    (∀ (d : Driver) (bp rp : List Nat),
      (d.displayGray bp rp).st.has_basemap = false) := by
  exact ⟨fun _ _ _ _ _ _ _ _ _ => rfl, fun _ _ _ => rfl⟩


/-! Trace bookkeeping for the driver model. -/

lemma wcmd_st (d : Driver) (c : Nat) (a : List Nat) : (wcmd d c a).st = d.st := rfl

lemma wcmd_prev (d : Driver) (c : Nat) (a : List Nat) : (wcmd d c a).prev = d.prev := rfl

lemma wcmd_trace (d : Driver) (c : Nat) (a : List Nat) :
    (wcmd d c a).trace = d.trace ++ [Ev.cmd c a] := rfl

lemma setWindow_st (d : Driver) (x y w h : Nat) : (d.setWindow x y w h).st = d.st := rfl

lemma setWindow_prev (d : Driver) (x y w h : Nat) :
    (d.setWindow x y w h).prev = d.prev := rfl

lemma setWindow_trace (d : Driver) (x y w h : Nat) :
    (d.setWindow x y w h).trace = d.trace ++
      [Ev.cmd CMD_RAM_X [x / 8, (x + (if w = 0 then WIDTH else w) - 1) / 8],
       Ev.cmd CMD_RAM_Y [y % 256, y / 256,
         (y + (if h = 0 then HEIGHT else h) - 1) % 256,
         (y + (if h = 0 then HEIGHT else h) - 1) / 256],
       Ev.cmd CMD_RAM_X_CNT [x / 8],
       Ev.cmd CMD_RAM_Y_CNT [y % 256, y / 256]] := by
  simp [Driver.setWindow, wcmd]

lemma updateSeq_trace (d : Driver) (m : Nat) :
    (d.updateSeq m).trace = d.trace ++
      [Ev.cmd CMD_UPDATE_CTRL2 [m], Ev.cmd CMD_ACTIVATE []] := by
  simp [Driver.updateSeq, wcmd]

lemma updateSeq_st (d : Driver) (m : Nat) : (d.updateSeq m).st = d.st := rfl

lemma updateSeq_prev (d : Driver) (m : Nat) : (d.updateSeq m).prev = d.prev := rfl

/-- _init_partial appends only configuration commands (never ACTIVATE or
UPDATE_CTRL2) and touches neither the refresh counters, the basemap
flags, nor the differential buffer. -/
lemma initPartialMode_props (d : Driver) (x y w h : Nat) :
    ∃ t, (d.initPartialMode x y w h).trace = d.trace ++ t ∧
      (∀ e ∈ t, isActivateEv e = false ∧ isCtrl2Ev e = false) ∧
      (d.initPartialMode x y w h).st.partial_count = d.st.partial_count ∧
      (d.initPartialMode x y w h).st.partial_threshold = d.st.partial_threshold ∧
      (d.initPartialMode x y w h).st.has_basemap = d.st.has_basemap ∧
      (d.initPartialMode x y w h).st.is_initial = d.st.is_initial ∧
      (d.initPartialMode x y w h).prev = d.prev := by
  unfold Driver.initPartialMode
  dsimp only
  generalize (if w = 0 then WIDTH else w) = ww
  generalize (if h = 0 then HEIGHT else h) = hh
  split_ifs with h1 h2
  · refine ⟨_, setWindow_trace d x y ww hh, ?_, rfl, rfl, rfl, rfl, rfl⟩
    intro e he
    simp only [List.mem_cons, List.not_mem_nil, or_false] at he
    rcases he with rfl | rfl | rfl | rfl <;> exact ⟨rfl, rfl⟩
  · refine ⟨_, by rw [setWindow_trace, wcmd_trace, List.append_assoc],
      ?_, rfl, rfl, rfl, rfl, rfl⟩
    intro e he
    simp only [List.cons_append, List.nil_append, List.mem_cons,
      List.not_mem_nil, or_false] at he
    rcases he with rfl | rfl | rfl | rfl | rfl <;> exact ⟨rfl, rfl⟩
  · refine ⟨[Ev.reset,
      Ev.cmd CMD_DRIVER_OUTPUT [(HEIGHT - 1) % 256, (HEIGHT - 1) / 256, 0x00],
      Ev.cmd CMD_DATA_ENTRY [DATA_ENTRY_INC],
      Ev.cmd CMD_BORDER [BORDER_PARTIAL_MODE2],
      Ev.cmd CMD_UPDATE_CTRL1 [0x00, 0x80],
      Ev.cmd CMD_TEMP_SENSOR [TEMP_SENSOR_INTERNAL],
      Ev.cmd CMD_SOFT_START SOFT_START_DEFAULT,
      Ev.cmd CMD_RAM_X [x / 8, (x + (if ww = 0 then WIDTH else ww) - 1) / 8],
      Ev.cmd CMD_RAM_Y [y % 256, y / 256,
        (y + (if hh = 0 then HEIGHT else hh) - 1) % 256,
        (y + (if hh = 0 then HEIGHT else hh) - 1) / 256],
      Ev.cmd CMD_RAM_X_CNT [x / 8],
      Ev.cmd CMD_RAM_Y_CNT [y % 256, y / 256]],
      ?_, ?_, rfl, rfl, rfl, rfl, rfl⟩
    · rw [setWindow_trace]
      simp [wcmd, hwreset, List.append_assoc]
    · intro e he
      simp only [List.mem_cons, List.not_mem_nil, or_false] at he
      rcases he with rfl | rfl | rfl | rfl | rfl | rfl | rfl | rfl | rfl | rfl | rfl <;>
        exact ⟨rfl, rfl⟩

/-- One aligned region step of the display_regions loop: the body is the
recursive call on an intermediate driver that has the same refresh state
and has emitted only window, counter and RAM-data commands. -/
lemma processRegions_cons (d : Driver) (r : Region) (rest : List Region)
    (hx : r.x % 8 = 0) (hw : r.w % 8 = 0) :
    ∃ (dM : Driver) (t0 : List Ev),
      d.processRegions (r :: rest) = dM.processRegions rest ∧
      dM.trace = d.trace ++ t0 ∧ dM.st = d.st ∧
      (∀ e ∈ t0, isActivateEv e = false ∧ isCtrl2Ev e = false) := by
  rw [Driver.processRegions, if_neg (by omega)]
  dsimp only
  by_cases hp : truthy (d.setWindow r.x r.y r.w r.h).prev = true
  · rw [if_pos hp]
    refine ⟨wcmd (wcmd (wcmd
        { wcmd (d.setWindow r.x r.y r.w r.h) CMD_RAM_RED
            (oldRegionBytes (d.prev.getD []) (r.x / 8) (r.w / 8) r.y r.h (WIDTH / 8)) with
          prev := some (writeRegionBack (d.prev.getD []) r.data
            (r.x / 8) (r.w / 8) r.y r.h (WIDTH / 8)) }
        CMD_RAM_X_CNT [r.x / 8]) CMD_RAM_Y_CNT [r.y % 256, r.y / 256])
        CMD_RAM_BLACK r.data,
      [Ev.cmd CMD_RAM_X [r.x / 8, (r.x + (if r.w = 0 then WIDTH else r.w) - 1) / 8],
       Ev.cmd CMD_RAM_Y [r.y % 256, r.y / 256,
         (r.y + (if r.h = 0 then HEIGHT else r.h) - 1) % 256,
         (r.y + (if r.h = 0 then HEIGHT else r.h) - 1) / 256],
       Ev.cmd CMD_RAM_X_CNT [r.x / 8],
       Ev.cmd CMD_RAM_Y_CNT [r.y % 256, r.y / 256],
       Ev.cmd CMD_RAM_RED
         (oldRegionBytes (d.prev.getD []) (r.x / 8) (r.w / 8) r.y r.h (WIDTH / 8)),
       Ev.cmd CMD_RAM_X_CNT [r.x / 8],
       Ev.cmd CMD_RAM_Y_CNT [r.y % 256, r.y / 256],
       Ev.cmd CMD_RAM_BLACK r.data], rfl, ?_, rfl, ?_⟩
    · simp [wcmd, Driver.setWindow, List.append_assoc]
    · intro e he
      simp only [List.mem_cons, List.not_mem_nil, or_false] at he
      rcases he with rfl | rfl | rfl | rfl | rfl | rfl | rfl | rfl <;> exact ⟨rfl, rfl⟩
  · rw [if_neg hp]
    refine ⟨wcmd (wcmd (wcmd (d.setWindow r.x r.y r.w r.h)
        CMD_RAM_X_CNT [r.x / 8]) CMD_RAM_Y_CNT [r.y % 256, r.y / 256])
        CMD_RAM_BLACK r.data,
      [Ev.cmd CMD_RAM_X [r.x / 8, (r.x + (if r.w = 0 then WIDTH else r.w) - 1) / 8],
       Ev.cmd CMD_RAM_Y [r.y % 256, r.y / 256,
         (r.y + (if r.h = 0 then HEIGHT else r.h) - 1) % 256,
         (r.y + (if r.h = 0 then HEIGHT else r.h) - 1) / 256],
       Ev.cmd CMD_RAM_X_CNT [r.x / 8],
       Ev.cmd CMD_RAM_Y_CNT [r.y % 256, r.y / 256],
       Ev.cmd CMD_RAM_X_CNT [r.x / 8],
       Ev.cmd CMD_RAM_Y_CNT [r.y % 256, r.y / 256],
       Ev.cmd CMD_RAM_BLACK r.data], rfl, ?_, rfl, ?_⟩
    · simp [wcmd, Driver.setWindow, List.append_assoc]
    · intro e he
      simp only [List.mem_cons, List.not_mem_nil, or_false] at he
      rcases he with rfl | rfl | rfl | rfl | rfl | rfl | rfl <;> exact ⟨rfl, rfl⟩

/-- The region loop succeeds on aligned region lists, appending only RAM
window, counter and RAM data writes. -/
lemma processRegions_aligned (regs : List Region) :
    ∀ d : Driver, (∀ r ∈ regs, r.x % 8 = 0 ∧ r.w % 8 = 0) →
    ∃ d2 t, d.processRegions regs = (d2, none) ∧ d2.trace = d.trace ++ t ∧
      d2.st = d.st ∧ (∀ e ∈ t, isActivateEv e = false ∧ isCtrl2Ev e = false) := by
  induction regs with
  | nil =>
    intro d _
    exact ⟨d, [], rfl, by simp, rfl, by simp⟩
  | cons r rest ih =>
    intro d hal
    have hr := hal r (List.mem_cons_self r rest)
    obtain ⟨dM, t0, hstep, htr0, hst0, hmem0⟩ :=
      processRegions_cons d r rest hr.1 hr.2
    obtain ⟨d2, t2, heq, htr, hst, hmem⟩ :=
      ih dM (fun q hq => hal q (List.mem_cons_of_mem r hq))
    refine ⟨d2, t0 ++ t2, hstep.trans heq, ?_, hst.trans hst0, ?_⟩
    · rw [htr, htr0, List.append_assoc]
    · intro e he
      rcases List.mem_append.1 he with h1 | h2
      · exact hmem0 e h1
      · exact hmem e h2

/-- The region loop raises on the first misaligned region; everything it
emitted up to that point avoids ACTIVATE and UPDATE_CTRL2, and the
refresh state is untouched. -/
lemma processRegions_misaligned (regs : List Region) :
    ∀ d : Driver, (∃ r ∈ regs, ¬(r.x % 8 = 0 ∧ r.w % 8 = 0)) →
    ∃ d2 e, d.processRegions regs = (d2, some e) ∧
      (∃ t, d2.trace = d.trace ++ t ∧
        (∀ ev ∈ t, isActivateEv ev = false ∧ isCtrl2Ev ev = false)) ∧
      d2.st = d.st := by
  induction regs with
  | nil => intro d h; simp at h
  | cons r rest ih =>
    intro d hex
    by_cases hr : r.x % 8 = 0 ∧ r.w % 8 = 0
    · have hrest : ∃ q ∈ rest, ¬(q.x % 8 = 0 ∧ q.w % 8 = 0) := by
        rcases hex with ⟨q, hq, hqp⟩
        rcases List.mem_cons.1 hq with rfl | hq2
        · exact absurd hr hqp
        · exact ⟨q, hq2, hqp⟩
      obtain ⟨dM, t0, hstep, htr0, hst0, hmem0⟩ :=
        processRegions_cons d r rest hr.1 hr.2
      obtain ⟨d2, e, heq, ⟨t2, htr, hmem⟩, hst⟩ := ih dM hrest
      refine ⟨d2, e, hstep.trans heq, ⟨t0 ++ t2, ?_, ?_⟩, hst.trans hst0⟩
      · rw [htr, htr0, List.append_assoc]
      · intro ev hev
        rcases List.mem_append.1 hev with h1 | h2
        · exact hmem0 ev h1
        · exact hmem ev h2
    · refine ⟨d, "x and w must be multiples of 8", ?_, ⟨[], by simp, by simp⟩, rfl⟩
      rw [Driver.processRegions, if_pos (by omega)]

/-- Counterexample to claim C3 as stated: display_regions runs
_init_partial (emitting border and window commands and flipping
in_partial_mode) before the alignment check, so a misaligned first region
is rejected only after commands were emitted and state was changed. -/
theorem c3_counterexample :
    (sampleDriver.displayRegions cexRegions).2 ≠ none ∧
    (sampleDriver.displayRegions cexRegions).1.trace ≠ [] ∧
    (sampleDriver.displayRegions cexRegions).1.st ≠ sampleDriver.st := by
  decide

/-- Claim C3, amended: with has_basemap set, a region list containing a
region whose x or w is not a multiple of 8 raises ValueError, and the
refresh is never triggered: the call emits no ACTIVATE and no
UPDATE_CTRL2 command and partial_count is unchanged (partial-mode init
and window commands, and RAM writes of earlier aligned regions, may
already have been emitted). -/
theorem c3_misaligned_region_rejected (d : Driver) (regs : List Region)
    (hb : d.st.has_basemap = true)
    (hm : ∃ r ∈ regs, ¬(r.x % 8 = 0 ∧ r.w % 8 = 0)) :
    (d.displayRegions regs).2 ≠ none ∧
    (∀ e ∈ traceDelta d (d.displayRegions regs).1,
      isActivateEv e = false ∧ isCtrl2Ev e = false) ∧
    (d.displayRegions regs).1.st.partial_count = d.st.partial_count := by
  rcases regs with _ | ⟨first, rest⟩
  · rcases hm with ⟨r, hr, _⟩
    simp at hr
  · obtain ⟨ti, htri, hmemi, hcnt, _, _, _, _⟩ :=
      initPartialMode_props d first.x first.y first.w first.h
    obtain ⟨d2, e, heq, ⟨t2, htr2, hmem2⟩, hst2⟩ :=
      processRegions_misaligned (first :: rest)
        (d.initPartialMode first.x first.y first.w first.h) hm
    have hres : d.displayRegions (first :: rest) = (d2, some e) := by
      unfold Driver.displayRegions
      rw [if_neg (by simp [hb])]
      dsimp only
      rw [heq]
    rw [hres]
    have htr : d2.trace = d.trace ++ (ti ++ t2) := by
      rw [htr2, htri, List.append_assoc]
    refine ⟨by simp, ?_, ?_⟩
    · intro ev hev
      simp only [traceDelta, htr, List.drop_left] at hev
      rcases List.mem_append.1 hev with h1 | h2
      · exact hmemi ev h1
      · exact hmem2 ev h2
    · rw [hst2, hcnt]

/-- Witness for the amended C3 on a concrete driver and region list. -/
theorem c3_misaligned_region_rejected_witness :
    (sampleDriver.st.has_basemap = true ∧
      (∃ r ∈ cexRegions, ¬(r.x % 8 = 0 ∧ r.w % 8 = 0))) ∧
    ((sampleDriver.displayRegions cexRegions).2 ≠ none ∧
      (∀ e ∈ traceDelta sampleDriver (sampleDriver.displayRegions cexRegions).1,
        isActivateEv e = false ∧ isCtrl2Ev e = false) ∧
      (sampleDriver.displayRegions cexRegions).1.st.partial_count =
        sampleDriver.st.partial_count) :=
  ⟨⟨by decide, by decide⟩,
   c3_misaligned_region_rejected sampleDriver cexRegions (by decide) (by decide)⟩

/-- Counterexample to claim C4 as stated: the empty region list is
accepted (no error) but returns before any command is emitted, so the
number of ACTIVATE commands is 0, not one. -/
theorem c4_counterexample :
    (sampleDriver.displayRegions []).2 = none ∧
    (traceDelta sampleDriver (sampleDriver.displayRegions []).1).countP
      isActivateEv ≠ 1 := by
  decide

/-- Claim C4, amended: for every nonempty accepted region list (basemap
set, all regions 8-aligned), display_regions emits exactly one ACTIVATE,
and it comes after every RAM_RED and RAM_BLACK data write of every
region; the empty list emits no commands at all. -/
theorem c4_single_activation (d : Driver) (regs : List Region)
    (hb : d.st.has_basemap = true) (hne : regs ≠ [])
    (hal : ∀ r ∈ regs, r.x % 8 = 0 ∧ r.w % 8 = 0) :
    (d.displayRegions regs).2 = none ∧
    (traceDelta d (d.displayRegions regs).1).countP isActivateEv = 1 ∧
    ∃ pre, traceDelta d (d.displayRegions regs).1 =
        pre ++ [Ev.cmd CMD_UPDATE_CTRL2 [SEQ_PARTIAL_MODE2], Ev.cmd CMD_ACTIVATE []] ∧
      (∀ e ∈ pre, isActivateEv e = false) ∧
      (∀ e ∈ traceDelta d (d.displayRegions regs).1,
        isRamWriteEv e = true → e ∈ pre) := by
  rcases regs with _ | ⟨first, rest⟩
  · exact absurd rfl hne
  · obtain ⟨ti, htri, hmemi, _, _, _, _, _⟩ :=
      initPartialMode_props d first.x first.y first.w first.h
    obtain ⟨d2, t2, heq, htr2, hst2, hmem2⟩ :=
      processRegions_aligned (first :: rest)
        (d.initPartialMode first.x first.y first.w first.h) hal
    have hres : d.displayRegions (first :: rest) =
        ({ st := (d2.updateSeq SEQ_PARTIAL_MODE2).st.on_partial_refresh_complete,
           prev := (d2.updateSeq SEQ_PARTIAL_MODE2).prev,
           trace := (d2.updateSeq SEQ_PARTIAL_MODE2).trace }, none) := by
      unfold Driver.displayRegions
      rw [if_neg (by simp [hb])]
      dsimp only
      rw [heq]
    rw [hres]
    have htr : (d2.updateSeq SEQ_PARTIAL_MODE2).trace =
        d.trace ++ ((ti ++ t2) ++
          [Ev.cmd CMD_UPDATE_CTRL2 [SEQ_PARTIAL_MODE2], Ev.cmd CMD_ACTIVATE []]) := by
      rw [updateSeq_trace, htr2, htri]
      simp [List.append_assoc]
    have hdelta : traceDelta d
        ({ st := (d2.updateSeq SEQ_PARTIAL_MODE2).st.on_partial_refresh_complete,
           prev := (d2.updateSeq SEQ_PARTIAL_MODE2).prev,
           trace := (d2.updateSeq SEQ_PARTIAL_MODE2).trace } : Driver) =
        (ti ++ t2) ++
          [Ev.cmd CMD_UPDATE_CTRL2 [SEQ_PARTIAL_MODE2], Ev.cmd CMD_ACTIVATE []] := by
      simp only [traceDelta, htr, List.drop_left]
    have hpre : ∀ e ∈ ti ++ t2, isActivateEv e = false := by
      intro e he
      rcases List.mem_append.1 he with h1 | h2
      · exact (hmemi e h1).1
      · exact (hmem2 e h2).1
    refine ⟨rfl, ?_, ⟨ti ++ t2, hdelta, hpre, ?_⟩⟩
    · rw [hdelta, List.countP_append,
        List.countP_eq_zero.2 (fun a ha => by simp [hpre a ha])]
      decide
    · intro e he hram
      rw [hdelta] at he
      rcases List.mem_append.1 he with h1 | h2
      · exact h1
      · exfalso
        simp only [List.mem_cons, List.not_mem_nil, or_false] at h2
        rcases h2 with rfl | rfl <;> exact absurd hram (by decide)

/-- Witness for the amended C4 on a concrete two-region update. -/
theorem c4_single_activation_witness :
    (sampleDriver.st.has_basemap = true ∧ alignedRegions ≠ [] ∧
      (∀ r ∈ alignedRegions, r.x % 8 = 0 ∧ r.w % 8 = 0)) ∧
    ((sampleDriver.displayRegions alignedRegions).2 = none ∧
      (traceDelta sampleDriver
        (sampleDriver.displayRegions alignedRegions).1).countP isActivateEv = 1 ∧
      ∃ pre, traceDelta sampleDriver (sampleDriver.displayRegions alignedRegions).1 =
          pre ++ [Ev.cmd CMD_UPDATE_CTRL2 [SEQ_PARTIAL_MODE2], Ev.cmd CMD_ACTIVATE []] ∧
        (∀ e ∈ pre, isActivateEv e = false) ∧
        (∀ e ∈ traceDelta sampleDriver
          (sampleDriver.displayRegions alignedRegions).1,
          isRamWriteEv e = true → e ∈ pre)) :=
  ⟨⟨by decide, by decide, by decide⟩,
   c4_single_activation sampleDriver alignedRegions (by decide) (by decide) (by decide)⟩


/-! State and trace lemmas for the display dispatch paths (claim C1). -/

lemma ite_prev_st (c : Prop) [Decidable c] (x : Driver) (p : Option (List Nat)) :
    (if c then { x with prev := p } else x).st = x.st := by
  split_ifs <;> rfl

lemma ite_prev_trace (c : Prop) [Decidable c] (x : Driver) (p : Option (List Nat)) :
    (if c then { x with prev := p } else x).trace = x.trace := by
  split_ifs <;> rfl

lemma ite_wcmd_red_st (c : Prop) [Decidable c] (x : Driver) (a : List Nat) :
    (if c then wcmd x CMD_RAM_RED a else x).st = x.st := by
  split_ifs <;> rfl

lemma ite_prev_field_st (c : Prop) [Decidable c] (s : DriverState)
    (p q : Option (List Nat)) (tr : List Ev) :
    (if c then { st := s, prev := p, trace := tr }
     else ({ st := s, prev := q, trace := tr } : Driver)).st = s := by
  split_ifs <;> rfl

lemma ite_prev_field_trace (c : Prop) [Decidable c] (s : DriverState)
    (p q : Option (List Nat)) (tr : List Ev) :
    (if c then { st := s, prev := p, trace := tr }
     else ({ st := s, prev := q, trace := tr } : Driver)).trace = tr := by
  split_ifs <;> rfl

lemma sleep_true_st (d : Driver) :
    (d.sleep true).st.has_basemap = d.st.has_basemap ∧
    (d.sleep true).st.is_initial = d.st.is_initial ∧
    (d.sleep true).st.partial_count = d.st.partial_count ∧
    (d.sleep true).st.partial_threshold = d.st.partial_threshold := by
  unfold Driver.sleep Driver.powerOff
  split_ifs <;> simp [wcmd, DriverState.on_sleep]

lemma sleep_true_basemap (d : Driver) :
    (d.sleep true).st.has_basemap = d.st.has_basemap := (sleep_true_st d).1

lemma sleep_true_initial (d : Driver) :
    (d.sleep true).st.is_initial = d.st.is_initial := (sleep_true_st d).2.1

lemma sleep_true_count (d : Driver) :
    (d.sleep true).st.partial_count = d.st.partial_count := (sleep_true_st d).2.2.1

lemma sleep_true_threshold (d : Driver) :
    (d.sleep true).st.partial_threshold = d.st.partial_threshold := (sleep_true_st d).2.2.2

/-- sleep(retain_ram = true) emits at most the power-off pair and the
deep-sleep command; its only UPDATE_CTRL2 parameter is SEQ_POWER_OFF. -/
lemma sleep_trace (x : Driver) :
    ∃ ts, (x.sleep true).trace = x.trace ++ ts ∧
      ∀ data, Ev.cmd CMD_UPDATE_CTRL2 data ∈ ts → data = [SEQ_POWER_OFF] := by
  unfold Driver.sleep Driver.powerOff
  split_ifs with h1 h2
  · exact ⟨[], by simp, by simp⟩
  · refine ⟨[Ev.cmd CMD_UPDATE_CTRL2 [SEQ_POWER_OFF], Ev.cmd CMD_ACTIVATE [],
      Ev.cmd CMD_DEEP_SLEEP [SLEEP_MODE_1]], by simp [wcmd, List.append_assoc], ?_⟩
    intro data hd
    simp only [List.mem_cons, List.not_mem_nil, or_false, Ev.cmd.injEq] at hd
    rcases hd with ⟨_, h⟩ | ⟨h, _⟩ | ⟨h, _⟩
    · exact h
    · exact absurd h (by decide)
    · exact absurd h (by decide)
  · exact absurd rfl h2

/-- _init_full preserves the refresh counters and basemap flags. -/
lemma initFullMode_fields (d : Driver) :
    d.initFullMode.st.partial_count = d.st.partial_count ∧
    d.initFullMode.st.partial_threshold = d.st.partial_threshold ∧
    d.initFullMode.st.has_basemap = d.st.has_basemap ∧
    d.initFullMode.st.is_initial = d.st.is_initial := by
  unfold Driver.initFullMode
  dsimp only
  split_ifs <;>
    simp [wcmd, hwreset, DriverState.on_wake, DriverState.on_init_complete]

/-- _init_full never writes UPDATE_CTRL2. -/
lemma initFullMode_trace (d : Driver) :
    ∃ t, d.initFullMode.trace = d.trace ++ t ∧ ∀ e ∈ t, isCtrl2Ev e = false := by
  unfold Driver.initFullMode
  dsimp only
  split_ifs
  · exact ⟨[Ev.reset], by simp [hwreset], by decide⟩
  · refine ⟨Ev.reset ::
      [Ev.cmd CMD_SW_RESET [],
       Ev.cmd CMD_DRIVER_OUTPUT [(HEIGHT - 1) % 256, (HEIGHT - 1) / 256, 0x00],
       Ev.cmd CMD_DATA_ENTRY [DATA_ENTRY_INC],
       Ev.cmd CMD_RAM_X [0x00, WIDTH / 8 - 1],
       Ev.cmd CMD_RAM_Y [0x00, 0x00, (HEIGHT - 1) % 256, (HEIGHT - 1) / 256],
       Ev.cmd CMD_BORDER [BORDER_FULL],
       Ev.cmd CMD_UPDATE_CTRL1 [0x00, 0x80],
       Ev.cmd CMD_TEMP_SENSOR [TEMP_SENSOR_INTERNAL],
       Ev.cmd CMD_SOFT_START SOFT_START_DEFAULT,
       Ev.cmd CMD_RAM_X_CNT [0x00],
       Ev.cmd CMD_RAM_Y_CNT [0x00, 0x00]],
      by simp [wcmd, hwreset, List.append_assoc], by decide⟩
  · exact ⟨[], by simp, by simp⟩
  · refine ⟨[Ev.cmd CMD_SW_RESET [],
       Ev.cmd CMD_DRIVER_OUTPUT [(HEIGHT - 1) % 256, (HEIGHT - 1) / 256, 0x00],
       Ev.cmd CMD_DATA_ENTRY [DATA_ENTRY_INC],
       Ev.cmd CMD_RAM_X [0x00, WIDTH / 8 - 1],
       Ev.cmd CMD_RAM_Y [0x00, 0x00, (HEIGHT - 1) % 256, (HEIGHT - 1) / 256],
       Ev.cmd CMD_BORDER [BORDER_FULL],
       Ev.cmd CMD_UPDATE_CTRL1 [0x00, 0x80],
       Ev.cmd CMD_TEMP_SENSOR [TEMP_SENSOR_INTERNAL],
       Ev.cmd CMD_SOFT_START SOFT_START_DEFAULT,
       Ev.cmd CMD_RAM_X_CNT [0x00],
       Ev.cmd CMD_RAM_Y_CNT [0x00, 0x00]],
      by simp [wcmd, List.append_assoc], by decide⟩

/-- _display_full with no LUT and stay_awake = false, written as its
let chain (definitional). -/
lemma displayFullPath_none_false_eq (d : Driver) (f : List Nat) :
    d.displayFullPath f none false =
      (let dU := (wcmd (wcmd d.initFullMode CMD_RAM_BLACK f) CMD_RAM_RED f).updateSeq
        SEQ_FULL
       let dS := { dU with st := dU.st.on_full_refresh_complete }
       (if truthy dS.prev = true then { dS with prev := some f } else dS).sleep true) :=
  rfl

/-- After _display_full (no LUT, goes to sleep): counters reset, basemap
established, threshold untouched. -/
lemma displayFullPath_fields (d : Driver) (f : List Nat) :
    (d.displayFullPath f none false).st.partial_count = 0 ∧
    (d.displayFullPath f none false).st.has_basemap = true ∧
    (d.displayFullPath f none false).st.is_initial = false ∧
    (d.displayFullPath f none false).st.partial_threshold = d.st.partial_threshold := by
  rw [displayFullPath_none_false_eq]
  dsimp only
  refine ⟨?_, ?_, ?_, ?_⟩
  · rw [sleep_true_count, ite_prev_field_st]
    rfl
  · rw [sleep_true_basemap, ite_prev_field_st]
    rfl
  · rw [sleep_true_initial, ite_prev_field_st]
    rfl
  · rw [sleep_true_threshold, ite_prev_field_st]
    exact (initFullMode_fields d).2.1

/-- Composition through the final sleep for the full-path trace. -/
lemma sleep_compose_trace (X : Driver) (base tX : List Ev)
    (hX : X.trace = base ++ tX)
    (hmem : ∀ data, Ev.cmd CMD_UPDATE_CTRL2 data ∈ tX →
      data = [SEQ_FULL] ∨ data = [SEQ_POWER_OFF])
    (hF7 : Ev.cmd CMD_UPDATE_CTRL2 [SEQ_FULL] ∈ tX) :
    ∃ t, (X.sleep true).trace = base ++ t ∧
      Ev.cmd CMD_UPDATE_CTRL2 [SEQ_FULL] ∈ t ∧
      (∀ data, Ev.cmd CMD_UPDATE_CTRL2 data ∈ t →
        data = [SEQ_FULL] ∨ data = [SEQ_POWER_OFF]) := by
  obtain ⟨ts, hts, hms⟩ := sleep_trace X
  refine ⟨tX ++ ts, by rw [hts, hX, List.append_assoc], by simp [hF7], ?_⟩
  intro data hd
  rcases List.mem_append.1 hd with h1 | h2
  · exact hmem data h1
  · exact .inr (hms data h2)

/-- The _display_full call (no LUT, sleeping afterwards) writes
UPDATE_CTRL2 with SEQ_FULL, and its only other UPDATE_CTRL2 parameter is
the power-off sequence: in particular it never writes SEQ_PARTIAL. -/
lemma displayFullPath_trace (d : Driver) (f : List Nat) :
    ∃ t, (d.displayFullPath f none false).trace = d.trace ++ t ∧
      Ev.cmd CMD_UPDATE_CTRL2 [SEQ_FULL] ∈ t ∧
      (∀ data, Ev.cmd CMD_UPDATE_CTRL2 data ∈ t →
        data = [SEQ_FULL] ∨ data = [SEQ_POWER_OFF]) := by
  obtain ⟨ti, hti, hmi⟩ := initFullMode_trace d
  rw [displayFullPath_none_false_eq]
  dsimp only
  apply sleep_compose_trace _ _
    (ti ++ [Ev.cmd CMD_RAM_BLACK f, Ev.cmd CMD_RAM_RED f,
      Ev.cmd CMD_UPDATE_CTRL2 [SEQ_FULL], Ev.cmd CMD_ACTIVATE []])
  · rw [ite_prev_field_trace]
    show ((wcmd (wcmd d.initFullMode CMD_RAM_BLACK f) CMD_RAM_RED f).updateSeq
      SEQ_FULL).trace = _
    rw [updateSeq_trace, wcmd_trace, wcmd_trace, hti]
    simp [List.append_assoc]
  · intro data hd
    rcases List.mem_append.1 hd with h1 | h2
    · exact absurd (hmi _ h1) (by simp [isCtrl2Ev])
    · simp only [List.mem_cons, List.not_mem_nil, or_false, Ev.cmd.injEq] at h2
      rcases h2 with ⟨h, _⟩ | ⟨h, _⟩ | ⟨_, h⟩ | ⟨h, _⟩
      · exact absurd h (by decide)
      · exact absurd h (by decide)
      · exact .inl h
      · exact absurd h (by decide)
  · simp

/-- When a full refresh is needed, the partial path dispatches to the
full path. -/
lemma displayPartialPath_full_dispatch (d : Driver) (f : List Nat)
    (lut : Option (List Nat)) (sa : Bool)
    (h : d.st.needs_full_refresh = true) :
    d.displayPartialPath f false lut sa = d.displayFullPath f lut sa := by
  unfold Driver.displayPartialPath
  rw [if_pos (by simp [h])]

/-- _display_partial with no LUT, not forced, going to sleep, when no
full refresh is needed: its let chain (definitional given the guard). -/
lemma displayPartialPath_body_eq (d : Driver) (f : List Nat)
    (h : (d.st.needs_full_refresh || false) = false) :
    d.displayPartialPath f false none false =
      (let dI := (d.initPartialMode 0 0 0 0).setWindow 0 0 WIDTH HEIGHT
       let dR := if truthy dI.prev = true then
           wcmd dI CMD_RAM_RED (dI.prev.getD []) else dI
       let dU := (wcmd dR CMD_RAM_BLACK f).updateSeq SEQ_PARTIAL_MODE2
       let dP := if truthy dU.prev = true then { dU with prev := some f } else dU
       ({ dP with st := dP.st.on_partial_refresh_complete }).sleep true) := by
  unfold Driver.displayPartialPath
  rw [if_neg (by simp [h])]
  rfl

/-- One partial refresh under the threshold: the partial path runs,
incrementing partial_count and preserving the other flags. -/
lemma displayPartialPath_step (d : Driver) (f : List Nat)
    (hb : d.st.has_basemap = true) (hi : d.st.is_initial = false)
    (hc : d.st.partial_count < d.st.partial_threshold) :
    (d.displayPartialPath f false none false).st.has_basemap = true ∧
    (d.displayPartialPath f false none false).st.is_initial = false ∧
    (d.displayPartialPath f false none false).st.partial_count =
      d.st.partial_count + 1 ∧
    (d.displayPartialPath f false none false).st.partial_threshold =
      d.st.partial_threshold := by
  obtain ⟨ti, htri, hmemi, hcnt, hth, hbm, hii, hpv⟩ := initPartialMode_props d 0 0 0 0
  have hnf : (d.st.needs_full_refresh || false) = false := by
    have h1 : decide (d.st.partial_threshold ≤ d.st.partial_count) = false :=
      decide_eq_false (by omega)
    simp [DriverState.needs_full_refresh, hb, hi, h1]
  rw [displayPartialPath_body_eq d f hnf]
  dsimp only
  refine ⟨?_, ?_, ?_, ?_⟩
  · rw [sleep_true_basemap]
    dsimp only [DriverState.on_partial_refresh_complete]
    rw [ite_prev_st, updateSeq_st, wcmd_st, ite_wcmd_red_st, setWindow_st, hbm]
    exact hb
  · rw [sleep_true_initial]
    dsimp only [DriverState.on_partial_refresh_complete]
    rw [ite_prev_st, updateSeq_st, wcmd_st, ite_wcmd_red_st, setWindow_st, hii]
    exact hi
  · rw [sleep_true_count]
    dsimp only [DriverState.on_partial_refresh_complete]
    rw [ite_prev_st, updateSeq_st, wcmd_st, ite_wcmd_red_st, setWindow_st, hcnt]
  · rw [sleep_true_threshold]
    dsimp only [DriverState.on_partial_refresh_complete]
    rw [ite_prev_st, updateSeq_st, wcmd_st, ite_wcmd_red_st, setWindow_st]
    exact hth

/-- Buffer-length validation passes and display dispatches to the
partial path. -/
lemma display_partial_ok (d : Driver) (f : List Nat) (hf : f.length = BUFFER_SIZE) :
    d.display f false false false = .ok (d.displayPartialPath f false none false) := by
  unfold Driver.display
  rw [if_neg (by simp [hf])]
  rfl

/-- Buffer-length validation passes and display dispatches to the full
path. -/
lemma display_full_ok (d : Driver) (f : List Nat) (hf : f.length = BUFFER_SIZE) :
    d.display f true false false = .ok (d.displayFullPath f none false) := by
  unfold Driver.display
  rw [if_neg (by simp [hf])]
  rfl

/-- Invariant of a run of display(full = false) calls staying under the
threshold: each call goes the partial path and increments the counter. -/
lemma runPartials_inv (t : Nat) (fs : List (List Nat)) :
    ∀ d : Driver, (∀ f ∈ fs, f.length = BUFFER_SIZE) →
    d.st.has_basemap = true → d.st.is_initial = false →
    d.st.partial_threshold = t → d.st.partial_count + fs.length ≤ t →
    ∃ dN, runPartials d fs = .ok dN ∧ dN.st.has_basemap = true ∧
      dN.st.is_initial = false ∧ dN.st.partial_threshold = t ∧
      dN.st.partial_count = d.st.partial_count + fs.length := by
  induction fs with
  | nil =>
    intro d _ hb hi hth _
    exact ⟨d, rfl, hb, hi, hth, by simp⟩
  | cons f fs ih =>
    intro d hlen hb hi hth hcnt
    have hf := hlen f (List.mem_cons_self f fs)
    have hstep := displayPartialPath_step d f hb hi (by simp at hcnt; omega)
    rw [runPartials, display_partial_ok d f hf]
    obtain ⟨dN, hrun, h1, h2, h3, h4⟩ :=
      ih (d.displayPartialPath f false none false)
        (fun g hg => hlen g (List.mem_cons_of_mem _ hg)) hstep.1 hstep.2.1
        (hstep.2.2.2.trans hth) (by rw [hstep.2.2.1]; simp at hcnt ⊢; omega)
    exact ⟨dN, hrun, h1, h2, h3, by rw [h4, hstep.2.2.1]; simp; omega⟩

/-- Claim C1: with a basemap, past the initial refresh, and a positive
partial_threshold, a full refresh followed by partial_threshold
display(full = false) calls leaves the counter at the threshold, so the
next such call dispatches to the full-refresh path: its UPDATE_CTRL2
parameter is SEQ_FULL (0xF7), never SEQ_PARTIAL (0xFC), and afterwards
partial_count = 0.  Moreover needs_full_refresh() is equivalent to
is_initial or not has_basemap or (partial_threshold > 0 and
partial_count >= partial_threshold). -/
theorem c1_partial_threshold_forces_full (d0 : Driver) (t : Nat)
    (hb : d0.st.has_basemap = true) (hi : d0.st.is_initial = false)
    (hth : d0.st.partial_threshold = t) (ht : 0 < t)
    (f0 : List Nat) (hf0 : f0.length = BUFFER_SIZE)
    (fs : List (List Nat)) (hfs : ∀ f ∈ fs, f.length = BUFFER_SIZE)
    (hlen : fs.length = t)
    (g : List Nat) (hg : g.length = BUFFER_SIZE) :
    (∃ d1 dN dF, d0.display f0 true false false = .ok d1 ∧
      runPartials d1 fs = .ok dN ∧
      dN.display g false false false = .ok dF ∧
      Ev.cmd CMD_UPDATE_CTRL2 [SEQ_FULL] ∈ traceDelta dN dF ∧
      Ev.cmd CMD_UPDATE_CTRL2 [SEQ_PARTIAL_MODE2] ∉ traceDelta dN dF ∧
      dF.st.partial_count = 0) ∧
    (∀ s : DriverState, s.needs_full_refresh = true ↔
      (s.is_initial = true ∨ s.has_basemap = false ∨
        (0 < s.partial_threshold ∧ s.partial_threshold ≤ s.partial_count))) := by
  have hfld1 := displayFullPath_fields d0 f0
  obtain ⟨dN, hrun, hbN, hiN, hthN, hcN⟩ :=
    runPartials_inv t fs (d0.displayFullPath f0 none false) hfs hfld1.2.1
      hfld1.2.2.1 (hfld1.2.2.2.trans hth) (by rw [hfld1.1]; omega)
  have hc : dN.st.partial_count = t := by rw [hcN, hfld1.1, hlen]; simp
  have hneed : dN.st.needs_full_refresh = true := by
    simp [DriverState.needs_full_refresh, hthN, hc, ht]
  have hdisp : dN.display g false false false = .ok (dN.displayFullPath g none false) := by
    rw [display_partial_ok dN g hg, displayPartialPath_full_dispatch dN g none false hneed]
  obtain ⟨tF, htF, hF7, hchar⟩ := displayFullPath_trace dN g
  refine ⟨⟨d0.displayFullPath f0 none false, dN, dN.displayFullPath g none false,
    display_full_ok d0 f0 hf0, hrun, hdisp, ?_, ?_, (displayFullPath_fields dN g).1⟩, ?_⟩
  · simp only [traceDelta, htF, List.drop_left]
    exact hF7
  · simp only [traceDelta, htF, List.drop_left]
    intro hmem
    rcases hchar _ hmem with h | h
    · exact absurd h (by decide)
    · exact absurd h (by decide)
  · intro s
    simp only [DriverState.needs_full_refresh, Bool.or_eq_true, Bool.and_eq_true,
      decide_eq_true_eq, Bool.not_eq_true']
    exact or_assoc

/-- Witness for C1 at a concrete driver with threshold 10 and ten
intermediate partial frames. -/
theorem c1_partial_threshold_forces_full_witness :
    (sampleDriver.st.has_basemap = true ∧ sampleDriver.st.is_initial = false ∧
      sampleDriver.st.partial_threshold = 10 ∧ 0 < 10 ∧
      (List.replicate 4736 0).length = BUFFER_SIZE ∧
      (∀ f ∈ List.replicate 10 (List.replicate 4736 0), f.length = BUFFER_SIZE) ∧
      (List.replicate 10 (List.replicate 4736 0)).length = 10) ∧
    ((∃ d1 dN dF,
      sampleDriver.display (List.replicate 4736 0) true false false = .ok d1 ∧
      runPartials d1 (List.replicate 10 (List.replicate 4736 0)) = .ok dN ∧
      dN.display (List.replicate 4736 0) false false false = .ok dF ∧
      Ev.cmd CMD_UPDATE_CTRL2 [SEQ_FULL] ∈ traceDelta dN dF ∧
      Ev.cmd CMD_UPDATE_CTRL2 [SEQ_PARTIAL_MODE2] ∉ traceDelta dN dF ∧
      dF.st.partial_count = 0) ∧
    (∀ s : DriverState, s.needs_full_refresh = true ↔
      (s.is_initial = true ∨ s.has_basemap = false ∨
        (0 < s.partial_threshold ∧ s.partial_threshold ≤ s.partial_count)))) :=
 by
  have hlen : (List.replicate 4736 0).length = BUFFER_SIZE := by
    rw [List.length_replicate]
    rfl
  have hall : ∀ f ∈ List.replicate 10 (List.replicate 4736 0),
      f.length = BUFFER_SIZE := by
    intro f hf
    rw [List.eq_of_mem_replicate hf, List.length_replicate]
    rfl
  have hten : (List.replicate 10 (List.replicate 4736 0)).length = 10 := by
    rw [List.length_replicate]
  exact ⟨⟨by decide, by decide, by decide, by decide, hlen, hall, hten⟩,
    c1_partial_threshold_forces_full sampleDriver 10 (by decide) (by decide)
      (by decide) (by decide) _ hlen _ hall hten _ hlen⟩

/-! C8: measure_width (renderer.py lines 136 to 155). -/

/-- Eviction only drops entries: everything left in the cache after
evictLoop was there before. -/
lemma evictLoop_mem (sz cm : Nat) :
    ∀ (c : List (Nat × Glyph)) (size : Nat) (e : Nat × Glyph),
      e ∈ (evictLoop sz cm c size).1 → e ∈ c := by
  intro c
  induction c with
  | nil => intro size e he; simp [evictLoop] at he
  | cons hd tl ih =>
    intro size e he
    rw [evictLoop] at he
    split_ifs at he with h
    · exact List.mem_cons_of_mem hd (ih _ e he)
    · exact he

/-- Cache hit: _get_glyph returns the cached glyph and moves it to the
tail of the LRU. -/
lemma getGlyph_eq_hit (r : TextRendererM) (cp : Nat) (e0 : Nat × Glyph)
    (hf : r.cache.find? (fun e => e.1 == cp) = some e0) :
    getGlyph r cp =
      (some e0.2,
       { r with cache := (r.cache.filter fun e => e.1 ≠ cp) ++ [(cp, e0.2)] }) := by
  unfold getGlyph
  rw [hf]
  rfl

/-- Cache miss with no font containing the codepoint: _get_glyph returns
none and leaves the renderer unchanged. -/
lemma getGlyph_eq_miss_none (r : TextRendererM) (cp : Nat)
    (hf : r.cache.find? (fun e => e.1 == cp) = none)
    (hres : resolveGlyph r.fonts cp = none) :
    getGlyph r cp = (none, r) := by
  unfold getGlyph
  rw [hf, hres]
  rfl

/-- Cache miss with a resolving font: _get_glyph evicts until the new
entry fits, then appends it at the LRU tail. -/
lemma getGlyph_eq_miss_some (r : TextRendererM) (cp : Nat) (g : Glyph)
    (hf : r.cache.find? (fun e => e.1 == cp) = none)
    (hres : resolveGlyph r.fonts cp = some g) :
    getGlyph r cp =
      (some g,
       { r with
         cache := (evictLoop g.1.length r.cache_max r.cache r.cache_size).1
           ++ [(cp, g)],
         cache_size :=
           (evictLoop g.1.length r.cache_max r.cache r.cache_size).2
             + g.1.length }) := by
  unfold getGlyph
  rw [hf, hres]
  rfl

/-- Under a consistent cache, _get_glyph returns exactly what the font
stack resolves, keeps the cache consistent, and never touches the fonts. -/
lemma getGlyph_spec (r : TextRendererM) (cp : Nat) (h : cacheOK r) :
    (getGlyph r cp).1 = resolveGlyph r.fonts cp ∧
      cacheOK (getGlyph r cp).2 ∧ (getGlyph r cp).2.fonts = r.fonts := by
  rcases hf : r.cache.find? (fun e => e.1 == cp) with _ | e0
  · rcases hres : resolveGlyph r.fonts cp with _ | g
    · rw [getGlyph_eq_miss_none r cp hf hres]
      exact ⟨rfl, h, rfl⟩
    · rw [getGlyph_eq_miss_some r cp g hf hres]
      refine ⟨rfl, ?_, rfl⟩
      intro e he
      dsimp only at he ⊢
      simp only [List.mem_append, List.mem_singleton] at he
      rcases he with h1 | h2
      · exact h e (evictLoop_mem _ _ _ _ _ h1)
      · subst h2
        exact hres
  · have hmem : e0 ∈ r.cache := List.mem_of_find?_eq_some hf
    have hcp : e0.1 = cp := by simpa using List.find?_some hf
    have hres : resolveGlyph r.fonts cp = some e0.2 := by
      have hx := h e0 hmem
      rw [hcp] at hx
      exact hx
    rw [getGlyph_eq_hit r cp e0 hf, hres]
    refine ⟨rfl, ?_, rfl⟩
    intro e he
    dsimp only at he ⊢
    simp only [List.mem_append, List.mem_singleton] at he
    rcases he with h1 | h2
    · exact h e (List.mem_filter.mp h1).1
    · subst h2
      exact hres

/-- The measure_width fold accumulates exactly the per-character advance
sum of the font stack, for any starting accumulator and any renderer with
the given fonts and a consistent cache. -/
lemma measureStep_foldl (F : List BF2FontM) (fw : Nat) (scale : Int)
    (text : List Nat) :
    ∀ (r : TextRendererM) (acc : Int), r.fonts = F → cacheOK r →
      (text.foldl (measureStep scale (fw : Int)) (acc, r)).1 =
        acc + glyphAdvanceSum F fw text scale := by
  induction text with
  | nil =>
    intro r acc _ _
    simp [glyphAdvanceSum]
  | cons ch tl ih =>
    intro r acc hF hOK
    obtain ⟨hval, hOK2, hF2⟩ := getGlyph_spec r ch hOK
    rw [hF] at hval
    rcases hres : resolveGlyph F ch with _ | g
    · have hstep : measureStep scale (fw : Int) (acc, r) ch =
          (acc + (fw : Int) * scale, (getGlyph r ch).2) := by
        unfold measureStep
        dsimp only
        rw [hval, hres]
      rw [List.foldl_cons, hstep,
        ih (getGlyph r ch).2 (acc + (fw : Int) * scale) (hF2.trans hF) hOK2]
      simp only [glyphAdvanceSum, List.map_cons, List.sum_cons, hres]
      ring
    · have hstep : measureStep scale (fw : Int) (acc, r) ch =
          (acc + ((g.2.1 : Int) + 1) * scale, (getGlyph r ch).2) := by
        unfold measureStep
        dsimp only
        rw [hval, hres]
      rw [List.foldl_cons, hstep,
        ih (getGlyph r ch).2 (acc + ((g.2.1 : Int) + 1) * scale)
          (hF2.trans hF) hOK2]
      simp only [glyphAdvanceSum, List.map_cons, List.sum_cons, hres]
      ring

/-- C8 (amended): with at least one font loaded and a consistent glyph
cache, measure_width of a NONEMPTY text equals the sum over its
characters of (advance + 1) * scale for resolved glyphs plus
default_width * scale of the primary font for missing glyphs, minus one
scale of trailing spacing; the EMPTY text returns 0 (early guard at
renderer.py line 148), not 0 - scale as the literal claim would demand. -/
theorem c8_measure_width (r : TextRendererM) (f0 : BF2FontM)
    (rest : List BF2FontM) (hf : r.fonts = f0 :: rest) (hc : cacheOK r)
    (text : List Nat) (scale : Int) :
    (measureWidth r text scale).1 =
      if text = [] then 0
      else glyphAdvanceSum r.fonts f0.def_w text scale - scale := by
  rcases text with _ | ⟨ch, tl⟩
  · unfold measureWidth
    rw [hf]
    simp
  · unfold measureWidth
    rw [hf]
    dsimp only
    rw [if_neg (by simp : ¬(((ch :: tl).isEmpty) = true))]
    dsimp only
    rw [measureStep_foldl (f0 :: rest) f0.def_w scale (ch :: tl) r 0 hf hc,
      if_neg (by simp : ¬(ch :: tl = []))]
    rw [zero_add]

/-- Witness: for the one-glyph sample font (codepoint 65 resolved with
advance 4, codepoint 66 missing, default width 6) and scale 2, the
measured width of "AB" is (4+1)*2 + 6*2 - 2 = 20. -/
theorem c8_measure_width_witness :
    sampleRenderer.fonts = [sampleFont] ∧
      (measureWidth sampleRenderer [65, 66] 2).1 = 20 := by
  refine ⟨rfl, ?_⟩
  have h := c8_measure_width sampleRenderer sampleFont [] rfl
    (by simp [cacheOK, sampleRenderer]) [65, 66] 2
  rw [if_neg (by decide)] at h
  rw [h]
  rfl

/-- The literal claim fails on the empty string: measure_width returns 0
there, while the claimed formula (advance sum minus one scale) gives
0 - 1 = -1 at scale 1. -/
theorem c8_counterexample :
    (measureWidth sampleRenderer [] 1).1 = 0 ∧
      glyphAdvanceSum sampleRenderer.fonts sampleFont.def_w [] 1 - 1 = -1 := by
  exact ⟨rfl, rfl⟩


/-! C6: to_planes bit-plane correctness (framebuffer.py lines 72 to 99
and 425 to 440). -/

set_option maxRecDepth 4096

/-- For every byte value and pixel position in the byte, the _LUT_BLACK
entry carries the high bit of the corresponding 2-bit pixel. -/
lemma LUT_BLACK_bit : ∀ b < 256, ∀ r < 4,
    (LUT_BLACK.getD b 0 >>> (3 - r)) &&& 1 =
      (((b >>> (6 - 2 * r)) &&& 3) >>> 1) &&& 1 := by
  decide

/-- For every byte value and pixel position in the byte, the _LUT_RED
entry carries the low bit of the corresponding 2-bit pixel. -/
lemma LUT_RED_bit : ∀ b < 256, ∀ r < 4,
    (LUT_RED.getD b 0 >>> (3 - r)) &&& 1 =
      ((b >>> (6 - 2 * r)) &&& 3) &&& 1 := by
  decide

/-- LUT entries are nibbles. -/
lemma LUT_BLACK_lt16 : ∀ b < 256, LUT_BLACK.getD b 0 < 16 := by decide

/-- LUT entries are nibbles. -/
lemma LUT_RED_lt16 : ∀ b < 256, LUT_RED.getD b 0 < 16 := by decide

/-- Bit r (MSB first) of a byte assembled from two nibbles comes from the
high nibble when r < 4 and from the low nibble otherwise. -/
lemma nibble_bit : ∀ A < 16, ∀ B < 16, ∀ r < 8,
    (((A <<< 4 ||| B) >>> (7 - r)) &&& 1) =
      if r < 4 then (A >>> (3 - r)) &&& 1 else (B >>> (3 - (r - 4))) &&& 1 := by
  decide

/-- Entry j of a plane built by the to_planes loop. -/
lemma mkPlane_getD (lut buf : List Nat) (j : Nat) (hj : j < buf.length / 2) :
    (mkPlane lut buf).getD j 0 =
      (lut.getD (buf.getD (2 * j) 0) 0 <<< 4) |||
        lut.getD (buf.getD (2 * j + 1) 0) 0 := by
  unfold mkPlane
  rw [List.getD_eq_getElem?_getD, List.getElem?_map, List.getElem?_range hj]
  rfl

/-- An in-range getD is a member of the list. -/
lemma getD_mem (l : List Nat) (i : Nat) (hi : i < l.length) : l.getD i 0 ∈ l := by
  rw [List.getD_eq_getElem?_getD, List.getElem?_eq_getElem hi]
  exact List.getElem_mem hi

/-- _get_pixel_2bit at a physical pixel (x, y), with the Int floor
division and mod rewritten over Nat. -/
lemma get_pixel_2bit_nat (fb : FB) (x y : Nat) :
    fb.get_pixel_2bit (x : Int) (y : Int) =
      (fb.buf.getD ((y * fb.phys_w + x) / 4) 0 >>>
        (6 - 2 * ((y * fb.phys_w + x) % 4))) &&& 3 := by
  unfold FB.get_pixel_2bit
  dsimp only
  have harg : ((y : ℤ) * (fb.phys_w : ℤ) + (x : ℤ)) * 2 =
      ((2 * (y * fb.phys_w + x) : ℕ) : ℤ) := by push_cast; ring
  rw [harg, Int.fdiv_eq_ediv _ (by norm_num)]
  have h1 : ((((2 * (y * fb.phys_w + x) : ℕ) : ℤ)) / 8).toNat =
      (y * fb.phys_w + x) / 4 := by omega
  have h2 : ((6 : ℤ) - (((2 * (y * fb.phys_w + x) : ℕ) : ℤ)) % 8).toNat =
      6 - 2 * ((y * fb.phys_w + x) % 4) := by omega
  rw [h1, h2]

/-- C6: for every 2-bit buffer of the real shape (byte-valued contents,
length equal to _buffer_size, physical width a multiple of 8) and every
in-bounds physical pixel (x, y), to_planes returns planes whose bit
p = y * phys_w + x (MSB first) is the high bit (black plane) and the low
bit (red plane) of the stored 2-bit pixel value: the 256-entry LUT-based
conversion agrees with the per-pixel bit-plane definition. -/
theorem c6_to_planes (fb : FB) (x y : Nat)
    (hd : fb.depth = 2) (hw8 : fb.phys_w % 8 = 0)
    (hlen : fb.buf.length = fb.buffer_size)
    (hbytes : ∀ b ∈ fb.buf, b < 256)
    (hx : x < fb.phys_w) (hy : y < fb.phys_h) :
    ∃ bw red, fb.to_planes = Except.ok (bw, red) ∧
      planeBit bw (y * fb.phys_w + x) =
        (fb.get_pixel_2bit (x : Int) (y : Int) >>> 1) &&& 1 ∧
      planeBit red (y * fb.phys_w + x) =
        fb.get_pixel_2bit (x : Int) (y : Int) &&& 1 := by
  obtain ⟨k, hk⟩ : ∃ k, fb.phys_w = 8 * k := ⟨fb.phys_w / 8, by omega⟩
  set p := y * fb.phys_w + x with hp_def
  have hpw : p < 8 * (k * fb.phys_h) := by
    have h1 : p < (y + 1) * fb.phys_w := by rw [hp_def, add_one_mul]; omega
    have h2 : (y + 1) * fb.phys_w ≤ fb.phys_h * fb.phys_w :=
      Nat.mul_le_mul_right _ hy
    have h3 : fb.phys_h * fb.phys_w = 8 * (k * fb.phys_h) := by rw [hk]; ring
    omega
  have hlen4 : fb.buf.length = (8 * (k * fb.phys_h) * 2 + 7) / 8 := by
    rw [hlen]
    unfold FB.buffer_size
    rw [hd, hk]
    congr 1
    ring
  have hj : p / 8 < fb.buf.length / 2 := by rw [hlen4]; omega
  have hi0 : 2 * (p / 8) < fb.buf.length := by rw [hlen4]; omega
  have hi1 : 2 * (p / 8) + 1 < fb.buf.length := by rw [hlen4]; omega
  have hb0lt : fb.buf.getD (2 * (p / 8)) 0 < 256 :=
    hbytes _ (getD_mem fb.buf _ hi0)
  have hb1lt : fb.buf.getD (2 * (p / 8) + 1) 0 < 256 :=
    hbytes _ (getD_mem fb.buf _ hi1)
  have hpix := get_pixel_2bit_nat fb x y
  rw [← hp_def] at hpix
  have hblack : planeBit (mkPlane LUT_BLACK fb.buf) p =
      (((fb.buf.getD (p / 4) 0 >>> (6 - 2 * (p % 4))) &&& 3) >>> 1) &&& 1 := by
    unfold planeBit
    rw [mkPlane_getD LUT_BLACK fb.buf (p / 8) hj]
    rw [nibble_bit _ (LUT_BLACK_lt16 _ hb0lt) _ (LUT_BLACK_lt16 _ hb1lt)
      (p % 8) (Nat.mod_lt p (by norm_num))]
    by_cases hc : p % 8 < 4
    · rw [if_pos hc]
      have he1 : p / 4 = 2 * (p / 8) := by omega
      have he2 : p % 4 = p % 8 := by omega
      rw [he1, he2]
      exact LUT_BLACK_bit _ hb0lt (p % 8) hc
    · rw [if_neg hc]
      have he1 : p / 4 = 2 * (p / 8) + 1 := by omega
      have he2 : p % 4 = p % 8 - 4 := by omega
      rw [he1, he2]
      exact LUT_BLACK_bit _ hb1lt (p % 8 - 4) (by omega)
  have hred : planeBit (mkPlane LUT_RED fb.buf) p =
      ((fb.buf.getD (p / 4) 0 >>> (6 - 2 * (p % 4))) &&& 3) &&& 1 := by
    unfold planeBit
    rw [mkPlane_getD LUT_RED fb.buf (p / 8) hj]
    rw [nibble_bit _ (LUT_RED_lt16 _ hb0lt) _ (LUT_RED_lt16 _ hb1lt)
      (p % 8) (Nat.mod_lt p (by norm_num))]
    by_cases hc : p % 8 < 4
    · rw [if_pos hc]
      have he1 : p / 4 = 2 * (p / 8) := by omega
      have he2 : p % 4 = p % 8 := by omega
      rw [he1, he2]
      exact LUT_RED_bit _ hb0lt (p % 8) hc
    · rw [if_neg hc]
      have he1 : p / 4 = 2 * (p / 8) + 1 := by omega
      have he2 : p % 4 = p % 8 - 4 := by omega
      rw [he1, he2]
      exact LUT_RED_bit _ hb1lt (p % 8 - 4) (by omega)
  refine ⟨mkPlane LUT_BLACK fb.buf, mkPlane LUT_RED fb.buf, ?_, ?_, ?_⟩
  · unfold FB.to_planes
    rw [if_neg (by omega : ¬fb.depth ≠ 2)]
  · rw [hblack, hpix]
  · rw [hred, hpix]

/-- Witness: the 8 x 2, depth-2 sample buffer at physical pixel (3, 1). -/
theorem c6_to_planes_witness :
    sampleFB2.depth = 2 ∧
      (∃ bw red, sampleFB2.to_planes = Except.ok (bw, red) ∧
        planeBit bw (1 * sampleFB2.phys_w + 3) =
          (sampleFB2.get_pixel_2bit ((3 : ℕ) : Int) ((1 : ℕ) : Int) >>> 1) &&& 1 ∧
        planeBit red (1 * sampleFB2.phys_w + 3) =
          sampleFB2.get_pixel_2bit ((3 : ℕ) : Int) ((1 : ℕ) : Int) &&& 1) :=
  ⟨rfl, c6_to_planes sampleFB2 3 1 rfl rfl rfl (by decide) (by decide) (by decide)⟩


/-! C5: drawing-primitive memory safety.  Every write index logged by
writeByte is shown to lie in [0, buffer_size); LogExt is the inductive
step (geometry preserved, new log entries in range). -/

/-- buffer_size only depends on the geometry fields. -/
lemma buffer_size_eq_of (a b : FB) (h1 : b.phys_w = a.phys_w)
    (h2 : b.phys_h = a.phys_h) (h3 : b.depth = a.depth) :
    b.buffer_size = a.buffer_size := by
  unfold FB.buffer_size
  rw [h1, h2, h3]

/-- inRange transfers along geometry equality. -/
lemma inRange_congr {a b : FB} (h1 : b.phys_w = a.phys_w)
    (h2 : b.phys_h = a.phys_h) (h3 : b.depth = a.depth) {i : Int}
    (h : inRange a i) : inRange b i := by
  unfold inRange at h ⊢
  rw [buffer_size_eq_of a b h1 h2 h3]
  exact h

lemma LogExt_refl (a : FB) : LogExt a a :=
  ⟨rfl, rfl, rfl, rfl, fun i hi => Or.inl hi⟩

lemma LogExt_trans {a b c : FB} (h1 : LogExt a b) (h2 : LogExt b c) :
    LogExt a c := by
  obtain ⟨e1, e2, e3, e4, hw1⟩ := h1
  obtain ⟨f1, f2, f3, f4, hw2⟩ := h2
  refine ⟨f1.trans e1, f2.trans e2, f3.trans e3, f4.trans e4, ?_⟩
  intro i hi
  rcases hw2 i hi with hmem | hr
  · exact hw1 i hmem
  · exact Or.inr (inRange_congr e1.symm e2.symm e3.symm hr)

/-- A single in-range store is a safe extension. -/
lemma writeByte_logext (fb : FB) (idx : Int) (f : Nat → Nat)
    (h : inRange fb idx) : LogExt fb (writeByte fb idx f) := by
  refine ⟨rfl, rfl, rfl, rfl, ?_⟩
  intro i hi
  unfold writeByte at hi
  simp only [List.mem_append, List.mem_singleton] at hi
  rcases hi with h1 | h2
  · exact Or.inl h1
  · subst h2
    exact Or.inr h

/-- writeByte at an intermediate state f with the geometry of a. -/
lemma writeByte_logext' (a f : FB) (idx : Int) (g : Nat → Nat)
    (h1 : f.phys_w = a.phys_w) (h2 : f.phys_h = a.phys_h)
    (h3 : f.depth = a.depth) (h : inRange a idx) :
    LogExt f (writeByte f idx g) :=
  writeByte_logext f idx g (inRange_congr h1 h2 h3 h)

/-- LogExt survives a fold whose every step is a safe extension at any
state with the starting geometry. -/
lemma foldl_logext {α : Type} (step : FB → α → FB) (l : List α) :
    ∀ fb : FB,
      (∀ f a, a ∈ l → f.phys_w = fb.phys_w → f.phys_h = fb.phys_h →
        f.depth = fb.depth → f.rot = fb.rot → LogExt f (step f a)) →
      LogExt fb (l.foldl step fb) := by
  induction l with
  | nil => intro fb _; exact LogExt_refl fb
  | cons a l ih =>
    intro fb h
    rw [List.foldl_cons]
    have h0 : LogExt fb (step fb a) :=
      h fb a (List.mem_cons_self a l) rfl rfl rfl rfl
    refine LogExt_trans h0 (ih (step fb a) ?_)
    intro f a2 ha2 e1 e2 e3 e4
    exact h f a2 (List.mem_cons_of_mem a ha2) (e1.trans h0.1)
      (e2.trans h0.2.1) (e3.trans h0.2.2.1) (e4.trans h0.2.2.2.1)

/-- Row-major indexing stays inside h rows of k bytes. -/
lemma rowcol_lt (cc b k h : Nat) (hcc : cc < k) (hb : b < h) :
    b * k + cc < h * k := by
  have hsub : (h - 1) * k = h * k - k := by rw [Nat.sub_mul, one_mul]
  have hbk : b * k ≤ (h - 1) * k := Nat.mul_le_mul_right k (by omega)
  have hk_le : k ≤ h * k := by
    calc k = 1 * k := (one_mul k).symm
    _ ≤ h * k := Nat.mul_le_mul_right k (by omega)
  omega

/-- Linearised pixel index bound. -/
lemma pix_index_lt (a b w h : Nat) (ha : a < w) (hb : b < h) :
    b * w + a < w * h := by
  have h1 : b * w + a < (b + 1) * w := by rw [add_one_mul]; omega
  have h2 : (b + 1) * w ≤ h * w := Nat.mul_le_mul_right w hb
  have h3 : h * w = w * h := Nat.mul_comm h w
  omega

/-- For a byte-aligned 1-bit buffer, row index py and byte column c give
an in-range byte. -/
lemma row_idx_inRange (fb : FB) (py c : Int) (hd : fb.depth = 1)
    (hw : fb.phys_w % 8 = 0) (h3 : 0 ≤ py) (h4 : py < (fb.phys_h : Int))
    (h5 : 0 ≤ c) (h6 : c < (fb.row_bytes : Int)) :
    inRange fb (py * (fb.row_bytes : Int) + c) := by
  obtain ⟨b, rfl⟩ := Int.eq_ofNat_of_zero_le h3
  obtain ⟨cc, rfl⟩ := Int.eq_ofNat_of_zero_le h5
  have hb : b < fb.phys_h := by exact_mod_cast h4
  have hcc : cc < fb.row_bytes := by exact_mod_cast h6
  obtain ⟨k, hk⟩ : ∃ k, fb.phys_w = 8 * k := ⟨fb.phys_w / 8, by omega⟩
  have hrk : fb.row_bytes = k := by
    unfold FB.row_bytes
    rw [hd, hk]
    omega
  have hbs : fb.buffer_size = fb.phys_h * k := by
    have hnum : fb.phys_w * fb.phys_h * fb.depth = 8 * (fb.phys_h * k) := by
      rw [hd, hk]; ring
    unfold FB.buffer_size
    rw [hnum]
    omega
  constructor
  · positivity
  · have hcast : ((b : ℤ)) * (fb.row_bytes : ℤ) + (cc : ℤ) =
        ((b * fb.row_bytes + cc : ℕ) : ℤ) := by push_cast; ring
    rw [hcast, hbs]
    have hlt := rowcol_lt cc b fb.row_bytes fb.phys_h hcc hb
    rw [hrk] at hlt
    have hlt2 : b * fb.row_bytes + cc < fb.phys_h * k := by rw [hrk]; exact hlt
    omega

/-- _set_pixel_1bit at an in-bounds physical pixel is a safe extension
(depth 1, byte-aligned width). -/
lemma set_pixel_1bit_logext (fb : FB) (px py : Int) (color : Nat)
    (hd : fb.depth = 1) (hw : fb.phys_w % 8 = 0)
    (h1 : 0 ≤ px) (h2 : px < (fb.phys_w : Int))
    (h3 : 0 ≤ py) (h4 : py < (fb.phys_h : Int)) :
    LogExt fb (fb.set_pixel_1bit px py color) := by
  have hrbw : (fb.phys_w : ℤ) = 8 * (fb.row_bytes : ℤ) := by
    have : fb.phys_w = 8 * fb.row_bytes := by
      unfold FB.row_bytes
      rw [hd]
      omega
    exact_mod_cast this
  have hfd : Int.fdiv px 8 = px / 8 := Int.fdiv_eq_ediv px (by norm_num)
  have hidx : inRange fb (py * (fb.row_bytes : Int) + Int.fdiv px 8) := by
    refine row_idx_inRange fb py _ hd hw h3 h4 ?_ ?_
    · rw [hfd]; omega
    · rw [hfd]; omega
  unfold FB.set_pixel_1bit
  dsimp only
  split_ifs with hc
  · exact writeByte_logext fb _ _ hidx
  · exact writeByte_logext fb _ _ hidx

/-- _set_pixel_2bit at an in-bounds physical pixel is a safe extension
(depth 2; no alignment needed, the bit offset is linear). -/
lemma set_pixel_2bit_logext (fb : FB) (px py : Int) (color : Nat)
    (hd : fb.depth = 2)
    (h1 : 0 ≤ px) (h2 : px < (fb.phys_w : Int))
    (h3 : 0 ≤ py) (h4 : py < (fb.phys_h : Int)) :
    LogExt fb (fb.set_pixel_2bit px py color) := by
  obtain ⟨a, rfl⟩ := Int.eq_ofNat_of_zero_le h1
  obtain ⟨b, rfl⟩ := Int.eq_ofNat_of_zero_le h3
  have ha : a < fb.phys_w := by exact_mod_cast h2
  have hb : b < fb.phys_h := by exact_mod_cast h4
  have harg : ((b : ℤ) * (fb.phys_w : ℤ) + (a : ℤ)) * 2 =
      ((2 * (b * fb.phys_w + a) : ℕ) : ℤ) := by push_cast; ring
  have hp : b * fb.phys_w + a < fb.phys_w * fb.phys_h :=
    pix_index_lt a b _ _ ha hb
  have hbs : fb.buffer_size = (fb.phys_w * fb.phys_h * 2 + 7) / 8 := by
    unfold FB.buffer_size
    rw [hd]
  unfold FB.set_pixel_2bit
  dsimp only
  refine writeByte_logext fb _ _ ⟨?_, ?_⟩
  · rw [harg, Int.fdiv_eq_ediv _ (by norm_num)]
    omega
  · rw [harg, Int.fdiv_eq_ediv _ (by norm_num), hbs]
    omega

/-- The depth dispatch of pixel / pixel_fast / bresPlot is safe at an
in-bounds physical pixel. -/
lemma set_pixel_dispatch_logext (fb : FB) (px py : Int) (eff : Nat)
    (hdp : fb.depth = 1 ∧ fb.phys_w % 8 = 0 ∨ fb.depth = 2)
    (h1 : 0 ≤ px) (h2 : px < (fb.phys_w : Int))
    (h3 : 0 ≤ py) (h4 : py < (fb.phys_h : Int)) :
    LogExt fb (if fb.depth = 1 then fb.set_pixel_1bit px py eff
               else fb.set_pixel_2bit px py eff) := by
  rcases hdp with ⟨hd1, hw8⟩ | hd2
  · rw [if_pos hd1]
    exact set_pixel_1bit_logext fb px py eff hd1 hw8 h1 h2 h3 h4
  · rw [if_neg (by omega)]
    exact set_pixel_2bit_logext fb px py eff hd2 h1 h2 h3 h4


/-- Appending one safe store after a safe extension. -/
lemma writeByte_post_logext {a f : FB} (idx : Int) (g : Nat → Nat)
    (h1 : LogExt a f) (h : inRange a idx) : LogExt a (writeByte f idx g) :=
  LogExt_trans h1 (writeByte_logext' a f idx g h1.1 h1.2.1 h1.2.2.1 h)

/-- Appending a safe fold after a safe extension. -/
lemma foldl_post_logext {α : Type} (step : FB → α → FB) (l : List α)
    {a f : FB} (h1 : LogExt a f)
    (hs : ∀ g x, x ∈ l → g.phys_w = a.phys_w → g.phys_h = a.phys_h →
      g.depth = a.depth → g.rot = a.rot → LogExt g (step g x)) :
    LogExt a (l.foldl step f) :=
  LogExt_trans h1 (foldl_logext step l f (fun g x hx e1 e2 e3 e4 =>
    hs g x hx (e1.trans h1.1) (e2.trans h1.2.1) (e3.trans h1.2.2.1)
      (e4.trans h1.2.2.2.1)))

/-- _hline_phys only writes inside row py (depth 1) or inside the 2-bit
pixel span, for a span that fits in [0, phys_w). -/
lemma hline_phys_logext (fb : FB) (px py len0 : Int) (color : Nat)
    (hdp : fb.depth = 1 ∧ fb.phys_w % 8 = 0 ∨ fb.depth = 2)
    (hpx : 0 ≤ px) (hlen : 0 < len0) (hws : px + len0 ≤ (fb.phys_w : Int))
    (hpy : 0 ≤ py) (hpyh : py < (fb.phys_h : Int)) :
    LogExt fb (fb.hline_phys px py len0 color) := by
  rcases hdp with ⟨hd1, hw8⟩ | hd2
  · unfold FB.hline_phys
    rw [if_neg (by omega : ¬fb.depth = 2)]
    dsimp only
    have hrbw : (fb.phys_w : ℤ) = 8 * (fb.row_bytes : ℤ) := by
      have : fb.phys_w = 8 * fb.row_bytes := by
        unfold FB.row_bytes
        rw [hd1]
        omega
      exact_mod_cast this
    have hfd0 : Int.fdiv px 8 = px / 8 := Int.fdiv_eq_ediv px (by norm_num)
    have hfd1 : Int.fdiv (px + len0 - 1) 8 = (px + len0 - 1) / 8 :=
      Int.fdiv_eq_ediv _ (by norm_num)
    have hb0_0 : 0 ≤ Int.fdiv px 8 := by rw [hfd0]; omega
    have hb0_u : Int.fdiv px 8 < (fb.row_bytes : ℤ) := by rw [hfd0]; omega
    have hb1_0 : 0 ≤ Int.fdiv (px + len0 - 1) 8 := by rw [hfd1]; omega
    have hb1_u : Int.fdiv (px + len0 - 1) 8 < (fb.row_bytes : ℤ) := by
      rw [hfd1]; omega
    have h_start : inRange fb (py * (fb.row_bytes : Int) + Int.fdiv px 8) :=
      row_idx_inRange fb py _ hd1 hw8 hpy hpyh hb0_0 hb0_u
    have h_end : inRange fb
        (py * (fb.row_bytes : Int) + Int.fdiv (px + len0 - 1) 8) :=
      row_idx_inRange fb py _ hd1 hw8 hpy hpyh hb1_0 hb1_u
    have hmid_all : ∀ (F : Nat → Nat) (f0 : FB), LogExt fb f0 →
        LogExt fb ((List.range
            (Int.fdiv (px + len0 - 1) 8 - Int.fdiv px 8 - 1).toNat).foldl
          (fun f (k : Nat) => writeByte f
            (py * (fb.row_bytes : Int) + Int.fdiv px 8 + 1 + (k : Int)) F)
          f0) := by
      intro F f0 h0
      apply foldl_post_logext _ _ h0
      intro g k hk e1 e2 e3 e4
      have hk2 : (k : ℤ) <
          Int.fdiv (px + len0 - 1) 8 - Int.fdiv px 8 - 1 := by
        have := List.mem_range.mp hk
        omega
      refine writeByte_logext' fb g _ _ e1 e2 e3 ?_
      have hsh : py * (fb.row_bytes : Int) + Int.fdiv px 8 + 1 + (k : Int) =
          py * (fb.row_bytes : Int) + (Int.fdiv px 8 + 1 + (k : Int)) := by
        ring
      rw [hsh]
      refine row_idx_inRange fb py _ hd1 hw8 hpy hpyh ?_ ?_
      · omega
      · omega
    split_ifs
    all_goals first
      | exact writeByte_logext fb _ _ h_start
      | exact writeByte_post_logext _ _
          (hmid_all _ _ (writeByte_logext fb _ _ h_start)) h_end
      | exact writeByte_post_logext _ _ (writeByte_logext fb _ _ h_start)
          h_end
  · unfold FB.hline_phys
    rw [if_pos hd2]
    apply foldl_logext
    intro f i hi e1 e2 e3 e4
    have hi2 : (i : ℤ) < len0 := by
      have := List.mem_range.mp hi
      omega
    have hwc : (f.phys_w : ℤ) = (fb.phys_w : ℤ) := by exact_mod_cast e1
    have hhc : (f.phys_h : ℤ) = (fb.phys_h : ℤ) := by exact_mod_cast e2
    refine set_pixel_2bit_logext f _ _ _ (by rw [e3]; exact hd2) ?_ ?_ ?_ ?_
    · omega
    · omega
    · omega
    · omega

/-- _vline_phys only writes the byte column of px across rows
py .. py+len0-1. -/
lemma vline_phys_logext (fb : FB) (px py len0 : Int) (color : Nat)
    (hdp : fb.depth = 1 ∧ fb.phys_w % 8 = 0 ∨ fb.depth = 2)
    (hpx : 0 ≤ px) (hpxw : px < (fb.phys_w : Int))
    (hpy : 0 ≤ py) (hph : py + len0 ≤ (fb.phys_h : Int)) :
    LogExt fb (fb.vline_phys px py len0 color) := by
  rcases hdp with ⟨hd1, hw8⟩ | hd2
  · unfold FB.vline_phys
    rw [if_neg (by omega : ¬fb.depth = 2)]
    dsimp only
    have hrbw : (fb.phys_w : ℤ) = 8 * (fb.row_bytes : ℤ) := by
      have : fb.phys_w = 8 * fb.row_bytes := by
        unfold FB.row_bytes
        rw [hd1]
        omega
      exact_mod_cast this
    have hfd0 : Int.fdiv px 8 = px / 8 := Int.fdiv_eq_ediv px (by norm_num)
    apply foldl_logext
    intro f k hk e1 e2 e3 e4
    have hk2 : (k : ℤ) < len0 := by
      have := List.mem_range.mp hk
      omega
    have hidx : inRange fb
        ((py + (k : Int)) * (fb.row_bytes : Int) + Int.fdiv px 8) := by
      refine row_idx_inRange fb (py + (k : Int)) _ hd1 hw8 ?_ ?_ ?_ ?_
      · omega
      · omega
      · rw [hfd0]; omega
      · rw [hfd0]; omega
    split_ifs with hc
    · exact writeByte_logext' fb f _ _ e1 e2 e3 hidx
    · exact writeByte_logext' fb f _ _ e1 e2 e3 hidx
  · unfold FB.vline_phys
    rw [if_pos hd2]
    apply foldl_logext
    intro f i hi e1 e2 e3 e4
    have hi2 : (i : ℤ) < len0 := by
      have := List.mem_range.mp hi
      omega
    have hwc : (f.phys_w : ℤ) = (fb.phys_w : ℤ) := by exact_mod_cast e1
    have hhc : (f.phys_h : ℤ) = (fb.phys_h : ℤ) := by exact_mod_cast e2
    refine set_pixel_2bit_logext f _ _ _ (by rw [e3]; exact hd2) ?_ ?_ ?_ ?_
    · omega
    · omega
    · omega
    · omega


/-- Logical width and height per rotation class. -/
lemma width_eq_w (fb : FB) (h : fb.rot = 0 ∨ fb.rot = 180) :
    fb.width = fb.phys_w := by
  unfold FB.width
  rw [if_pos h]

lemma width_eq_h (fb : FB) (h : ¬(fb.rot = 0 ∨ fb.rot = 180)) :
    fb.width = fb.phys_h := by
  unfold FB.width
  rw [if_neg h]

lemma height_eq_h (fb : FB) (h : fb.rot = 0 ∨ fb.rot = 180) :
    fb.height = fb.phys_h := by
  unfold FB.height
  rw [if_pos h]

lemma height_eq_w (fb : FB) (h : ¬(fb.rot = 0 ∨ fb.rot = 180)) :
    fb.height = fb.phys_w := by
  unfold FB.height
  rw [if_neg h]

/-- The depth side condition transfers along geometry equality. -/
lemma depth_hyp_transfer {fb f : FB}
    (hdp : fb.depth = 1 ∧ fb.phys_w % 8 = 0 ∨ fb.depth = 2)
    (e3 : f.depth = fb.depth) (e1 : f.phys_w = fb.phys_w) :
    f.depth = 1 ∧ f.phys_w % 8 = 0 ∨ f.depth = 2 := by
  rcases hdp with ⟨a, b⟩ | c
  · exact Or.inl ⟨by rw [e3]; exact a, by rw [e1]; exact b⟩
  · exact Or.inr (by rw [e3]; exact c)

/-- pixel body at rotation 0 (transform resolved). -/
lemma pixel_rot0_eq (fb : FB) (x y : Int) (color : Nat) (h : fb.rot = 0) :
    fb.pixel x y color =
      if ¬(0 ≤ x ∧ x < (fb.width : Int) ∧ 0 ≤ y ∧ y < (fb.height : Int))
      then fb
      else if fb.depth = 1 then
        fb.set_pixel_1bit (x) (y) (fb.effective_color color)
      else fb.set_pixel_2bit (x) (y) (fb.effective_color color) := by
  unfold FB.pixel
  rw [h]
  rfl

/-- pixel_fast body at rotation 0. -/
lemma pixel_fast_rot0_eq (fb : FB) (x y : Int) (color : Nat)
    (h : fb.rot = 0) :
    fb.pixel_fast x y color =
      if fb.depth = 1 then
        fb.set_pixel_1bit (x) (y) (fb.effective_color color)
      else fb.set_pixel_2bit (x) (y) (fb.effective_color color) := by
  unfold FB.pixel_fast
  rw [h]
  rfl

/-- hline body at rotation 0. -/
lemma hline_rot0_eq (fb : FB) (x0 y len0 : Int) (color : Nat)
    (h : fb.rot = 0) :
    fb.hline x0 y len0 color =
      (if len0 ≤ 0 ∨ y < 0 ∨ y ≥ (fb.height : Int) then fb
      else if x0 ≥ (fb.width : Int) ∨ x0 + len0 ≤ 0 then fb
      else
        let xl := if x0 < 0 then ((0 : Int), len0 + x0) else (x0, len0)
        let len1 := if xl.1 + xl.2 > (fb.width : Int)
          then (fb.width : Int) - xl.1 else xl.2
        if len1 ≤ 0 then fb
        else fb.hline_phys (xl.1) (y) len1 (fb.effective_color color)) := by
  unfold FB.hline
  rw [h]
  rfl

/-- vline body at rotation 0. -/
lemma vline_rot0_eq (fb : FB) (x y0 len0 : Int) (color : Nat)
    (h : fb.rot = 0) :
    fb.vline x y0 len0 color =
      (if len0 ≤ 0 ∨ x < 0 ∨ x ≥ (fb.width : Int) then fb
      else
        let yl := if y0 < 0 then ((0 : Int), len0 + y0) else (y0, len0)
        let len1 := if yl.1 + yl.2 > (fb.height : Int)
          then (fb.height : Int) - yl.1 else yl.2
        if len1 ≤ 0 then fb
        else fb.vline_phys (x) (yl.1) len1 (fb.effective_color color)) := by
  unfold FB.vline
  rw [h]
  rfl

/-- pixel body at rotation 90 (transform resolved). -/
lemma pixel_rot90_eq (fb : FB) (x y : Int) (color : Nat) (h : fb.rot = 90) :
    fb.pixel x y color =
      if ¬(0 ≤ x ∧ x < (fb.width : Int) ∧ 0 ≤ y ∧ y < (fb.height : Int))
      then fb
      else if fb.depth = 1 then
        fb.set_pixel_1bit ((fb.phys_w : Int) - 1 - y) (x) (fb.effective_color color)
      else fb.set_pixel_2bit ((fb.phys_w : Int) - 1 - y) (x) (fb.effective_color color) := by
  unfold FB.pixel
  rw [h]
  rfl

/-- pixel_fast body at rotation 90. -/
lemma pixel_fast_rot90_eq (fb : FB) (x y : Int) (color : Nat)
    (h : fb.rot = 90) :
    fb.pixel_fast x y color =
      if fb.depth = 1 then
        fb.set_pixel_1bit ((fb.phys_w : Int) - 1 - y) (x) (fb.effective_color color)
      else fb.set_pixel_2bit ((fb.phys_w : Int) - 1 - y) (x) (fb.effective_color color) := by
  unfold FB.pixel_fast
  rw [h]
  rfl

/-- hline body at rotation 90. -/
lemma hline_rot90_eq (fb : FB) (x0 y len0 : Int) (color : Nat)
    (h : fb.rot = 90) :
    fb.hline x0 y len0 color =
      (if len0 ≤ 0 ∨ y < 0 ∨ y ≥ (fb.height : Int) then fb
      else if x0 ≥ (fb.width : Int) ∨ x0 + len0 ≤ 0 then fb
      else
        let xl := if x0 < 0 then ((0 : Int), len0 + x0) else (x0, len0)
        let len1 := if xl.1 + xl.2 > (fb.width : Int)
          then (fb.width : Int) - xl.1 else xl.2
        if len1 ≤ 0 then fb
        else fb.vline_phys ((fb.phys_w : Int) - 1 - y) (xl.1) len1 (fb.effective_color color)) := by
  unfold FB.hline
  rw [h]
  rfl

/-- vline body at rotation 90. -/
lemma vline_rot90_eq (fb : FB) (x y0 len0 : Int) (color : Nat)
    (h : fb.rot = 90) :
    fb.vline x y0 len0 color =
      (if len0 ≤ 0 ∨ x < 0 ∨ x ≥ (fb.width : Int) then fb
      else
        let yl := if y0 < 0 then ((0 : Int), len0 + y0) else (y0, len0)
        let len1 := if yl.1 + yl.2 > (fb.height : Int)
          then (fb.height : Int) - yl.1 else yl.2
        if len1 ≤ 0 then fb
        else fb.hline_phys ((fb.phys_w : Int) - yl.1 - len1) (x) len1 (fb.effective_color color)) := by
  unfold FB.vline
  rw [h]
  rfl

/-- pixel body at rotation 180 (transform resolved). -/
lemma pixel_rot180_eq (fb : FB) (x y : Int) (color : Nat) (h : fb.rot = 180) :
    fb.pixel x y color =
      if ¬(0 ≤ x ∧ x < (fb.width : Int) ∧ 0 ≤ y ∧ y < (fb.height : Int))
      then fb
      else if fb.depth = 1 then
        fb.set_pixel_1bit ((fb.phys_w : Int) - 1 - x) ((fb.phys_h : Int) - 1 - y) (fb.effective_color color)
      else fb.set_pixel_2bit ((fb.phys_w : Int) - 1 - x) ((fb.phys_h : Int) - 1 - y) (fb.effective_color color) := by
  unfold FB.pixel
  rw [h]
  rfl

/-- pixel_fast body at rotation 180. -/
lemma pixel_fast_rot180_eq (fb : FB) (x y : Int) (color : Nat)
    (h : fb.rot = 180) :
    fb.pixel_fast x y color =
      if fb.depth = 1 then
        fb.set_pixel_1bit ((fb.phys_w : Int) - 1 - x) ((fb.phys_h : Int) - 1 - y) (fb.effective_color color)
      else fb.set_pixel_2bit ((fb.phys_w : Int) - 1 - x) ((fb.phys_h : Int) - 1 - y) (fb.effective_color color) := by
  unfold FB.pixel_fast
  rw [h]
  rfl

/-- hline body at rotation 180. -/
lemma hline_rot180_eq (fb : FB) (x0 y len0 : Int) (color : Nat)
    (h : fb.rot = 180) :
    fb.hline x0 y len0 color =
      (if len0 ≤ 0 ∨ y < 0 ∨ y ≥ (fb.height : Int) then fb
      else if x0 ≥ (fb.width : Int) ∨ x0 + len0 ≤ 0 then fb
      else
        let xl := if x0 < 0 then ((0 : Int), len0 + x0) else (x0, len0)
        let len1 := if xl.1 + xl.2 > (fb.width : Int)
          then (fb.width : Int) - xl.1 else xl.2
        if len1 ≤ 0 then fb
        else fb.hline_phys ((fb.phys_w : Int) - xl.1 - len1) ((fb.phys_h : Int) - 1 - y) len1 (fb.effective_color color)) := by
  unfold FB.hline
  rw [h]
  rfl

/-- vline body at rotation 180. -/
lemma vline_rot180_eq (fb : FB) (x y0 len0 : Int) (color : Nat)
    (h : fb.rot = 180) :
    fb.vline x y0 len0 color =
      (if len0 ≤ 0 ∨ x < 0 ∨ x ≥ (fb.width : Int) then fb
      else
        let yl := if y0 < 0 then ((0 : Int), len0 + y0) else (y0, len0)
        let len1 := if yl.1 + yl.2 > (fb.height : Int)
          then (fb.height : Int) - yl.1 else yl.2
        if len1 ≤ 0 then fb
        else fb.vline_phys ((fb.phys_w : Int) - 1 - x) ((fb.phys_h : Int) - yl.1 - len1) len1 (fb.effective_color color)) := by
  unfold FB.vline
  rw [h]
  rfl

/-- pixel body at rotation 270 (transform resolved). -/
lemma pixel_rot270_eq (fb : FB) (x y : Int) (color : Nat) (h : fb.rot = 270) :
    fb.pixel x y color =
      if ¬(0 ≤ x ∧ x < (fb.width : Int) ∧ 0 ≤ y ∧ y < (fb.height : Int))
      then fb
      else if fb.depth = 1 then
        fb.set_pixel_1bit (y) ((fb.phys_h : Int) - 1 - x) (fb.effective_color color)
      else fb.set_pixel_2bit (y) ((fb.phys_h : Int) - 1 - x) (fb.effective_color color) := by
  unfold FB.pixel
  rw [h]
  rfl

/-- pixel_fast body at rotation 270. -/
lemma pixel_fast_rot270_eq (fb : FB) (x y : Int) (color : Nat)
    (h : fb.rot = 270) :
    fb.pixel_fast x y color =
      if fb.depth = 1 then
        fb.set_pixel_1bit (y) ((fb.phys_h : Int) - 1 - x) (fb.effective_color color)
      else fb.set_pixel_2bit (y) ((fb.phys_h : Int) - 1 - x) (fb.effective_color color) := by
  unfold FB.pixel_fast
  rw [h]
  rfl

/-- hline body at rotation 270. -/
lemma hline_rot270_eq (fb : FB) (x0 y len0 : Int) (color : Nat)
    (h : fb.rot = 270) :
    fb.hline x0 y len0 color =
      (if len0 ≤ 0 ∨ y < 0 ∨ y ≥ (fb.height : Int) then fb
      else if x0 ≥ (fb.width : Int) ∨ x0 + len0 ≤ 0 then fb
      else
        let xl := if x0 < 0 then ((0 : Int), len0 + x0) else (x0, len0)
        let len1 := if xl.1 + xl.2 > (fb.width : Int)
          then (fb.width : Int) - xl.1 else xl.2
        if len1 ≤ 0 then fb
        else fb.vline_phys (y) ((fb.phys_h : Int) - xl.1 - len1) len1 (fb.effective_color color)) := by
  unfold FB.hline
  rw [h]
  rfl

/-- vline body at rotation 270. -/
lemma vline_rot270_eq (fb : FB) (x y0 len0 : Int) (color : Nat)
    (h : fb.rot = 270) :
    fb.vline x y0 len0 color =
      (if len0 ≤ 0 ∨ x < 0 ∨ x ≥ (fb.width : Int) then fb
      else
        let yl := if y0 < 0 then ((0 : Int), len0 + y0) else (y0, len0)
        let len1 := if yl.1 + yl.2 > (fb.height : Int)
          then (fb.height : Int) - yl.1 else yl.2
        if len1 ≤ 0 then fb
        else fb.hline_phys (yl.1) ((fb.phys_h : Int) - 1 - x) len1 (fb.effective_color color)) := by
  unfold FB.vline
  rw [h]
  rfl

/-- pixel is totally safe: out-of-bounds coordinates are rejected, the
rest transform into the physical rectangle. -/
lemma pixel_logext (fb : FB) (x y : Int) (color : Nat)
    (hr : validRot fb.rot)
    (hdp : fb.depth = 1 ∧ fb.phys_w % 8 = 0 ∨ fb.depth = 2) :
    LogExt fb (fb.pixel x y color) := by
  rcases hr with h | h | h | h
  · have hwc : (fb.width : ℤ) = (fb.phys_w : ℤ) := by
      exact_mod_cast width_eq_w fb (Or.inl h)
    have hhc : (fb.height : ℤ) = (fb.phys_h : ℤ) := by
      exact_mod_cast height_eq_h fb (Or.inl h)
    rw [pixel_rot0_eq fb x y color h]
    by_cases hb : 0 ≤ x ∧ x < (fb.width : Int) ∧ 0 ≤ y ∧ y < (fb.height : Int)
    · rw [if_neg (not_not_intro hb)]
      obtain ⟨hx1, hx2, hy1, hy2⟩ := hb
      exact set_pixel_dispatch_logext fb _ _ _ hdp (by omega) (by omega)
        (by omega) (by omega)
    · rw [if_pos hb]
      exact LogExt_refl fb
  · have hnor : ¬(fb.rot = 0 ∨ fb.rot = 180) := by rw [h]; decide
    have hwc : (fb.width : ℤ) = (fb.phys_h : ℤ) := by
      exact_mod_cast width_eq_h fb hnor
    have hhc : (fb.height : ℤ) = (fb.phys_w : ℤ) := by
      exact_mod_cast height_eq_w fb hnor
    rw [pixel_rot90_eq fb x y color h]
    by_cases hb : 0 ≤ x ∧ x < (fb.width : Int) ∧ 0 ≤ y ∧ y < (fb.height : Int)
    · rw [if_neg (not_not_intro hb)]
      obtain ⟨hx1, hx2, hy1, hy2⟩ := hb
      exact set_pixel_dispatch_logext fb _ _ _ hdp (by omega) (by omega)
        (by omega) (by omega)
    · rw [if_pos hb]
      exact LogExt_refl fb
  · have hwc : (fb.width : ℤ) = (fb.phys_w : ℤ) := by
      exact_mod_cast width_eq_w fb (Or.inr h)
    have hhc : (fb.height : ℤ) = (fb.phys_h : ℤ) := by
      exact_mod_cast height_eq_h fb (Or.inr h)
    rw [pixel_rot180_eq fb x y color h]
    by_cases hb : 0 ≤ x ∧ x < (fb.width : Int) ∧ 0 ≤ y ∧ y < (fb.height : Int)
    · rw [if_neg (not_not_intro hb)]
      obtain ⟨hx1, hx2, hy1, hy2⟩ := hb
      exact set_pixel_dispatch_logext fb _ _ _ hdp (by omega) (by omega)
        (by omega) (by omega)
    · rw [if_pos hb]
      exact LogExt_refl fb
  · have hnor : ¬(fb.rot = 0 ∨ fb.rot = 180) := by rw [h]; decide
    have hwc : (fb.width : ℤ) = (fb.phys_h : ℤ) := by
      exact_mod_cast width_eq_h fb hnor
    have hhc : (fb.height : ℤ) = (fb.phys_w : ℤ) := by
      exact_mod_cast height_eq_w fb hnor
    rw [pixel_rot270_eq fb x y color h]
    by_cases hb : 0 ≤ x ∧ x < (fb.width : Int) ∧ 0 ≤ y ∧ y < (fb.height : Int)
    · rw [if_neg (not_not_intro hb)]
      obtain ⟨hx1, hx2, hy1, hy2⟩ := hb
      exact set_pixel_dispatch_logext fb _ _ _ hdp (by omega) (by omega)
        (by omega) (by omega)
    · rw [if_pos hb]
      exact LogExt_refl fb

/-- pixel_fast is safe for logically in-bounds coordinates. -/
lemma pixel_fast_logext (fb : FB) (x y : Int) (color : Nat)
    (hr : validRot fb.rot)
    (hdp : fb.depth = 1 ∧ fb.phys_w % 8 = 0 ∨ fb.depth = 2)
    (hx1 : 0 ≤ x) (hx2 : x < (fb.width : Int))
    (hy1 : 0 ≤ y) (hy2 : y < (fb.height : Int)) :
    LogExt fb (fb.pixel_fast x y color) := by
  rcases hr with h | h | h | h
  · have hwc : (fb.width : ℤ) = (fb.phys_w : ℤ) := by
      exact_mod_cast width_eq_w fb (Or.inl h)
    have hhc : (fb.height : ℤ) = (fb.phys_h : ℤ) := by
      exact_mod_cast height_eq_h fb (Or.inl h)
    rw [pixel_fast_rot0_eq fb x y color h]
    exact set_pixel_dispatch_logext fb _ _ _ hdp (by omega) (by omega)
      (by omega) (by omega)
  · have hnor : ¬(fb.rot = 0 ∨ fb.rot = 180) := by rw [h]; decide
    have hwc : (fb.width : ℤ) = (fb.phys_h : ℤ) := by
      exact_mod_cast width_eq_h fb hnor
    have hhc : (fb.height : ℤ) = (fb.phys_w : ℤ) := by
      exact_mod_cast height_eq_w fb hnor
    rw [pixel_fast_rot90_eq fb x y color h]
    exact set_pixel_dispatch_logext fb _ _ _ hdp (by omega) (by omega)
      (by omega) (by omega)
  · have hwc : (fb.width : ℤ) = (fb.phys_w : ℤ) := by
      exact_mod_cast width_eq_w fb (Or.inr h)
    have hhc : (fb.height : ℤ) = (fb.phys_h : ℤ) := by
      exact_mod_cast height_eq_h fb (Or.inr h)
    rw [pixel_fast_rot180_eq fb x y color h]
    exact set_pixel_dispatch_logext fb _ _ _ hdp (by omega) (by omega)
      (by omega) (by omega)
  · have hnor : ¬(fb.rot = 0 ∨ fb.rot = 180) := by rw [h]; decide
    have hwc : (fb.width : ℤ) = (fb.phys_h : ℤ) := by
      exact_mod_cast width_eq_h fb hnor
    have hhc : (fb.height : ℤ) = (fb.phys_w : ℤ) := by
      exact_mod_cast height_eq_w fb hnor
    rw [pixel_fast_rot270_eq fb x y color h]
    exact set_pixel_dispatch_logext fb _ _ _ hdp (by omega) (by omega)
      (by omega) (by omega)

/-- hline is totally safe: the logical clip bounds the physical span. -/
lemma hline_logext (fb : FB) (x0 y len0 : Int) (color : Nat)
    (hr : validRot fb.rot)
    (hdp : fb.depth = 1 ∧ fb.phys_w % 8 = 0 ∨ fb.depth = 2) :
    LogExt fb (fb.hline x0 y len0 color) := by
  rcases hr with h | h | h | h
  · have hwc : (fb.width : ℤ) = (fb.phys_w : ℤ) := by
      exact_mod_cast width_eq_w fb (Or.inl h)
    have hhc : (fb.height : ℤ) = (fb.phys_h : ℤ) := by
      exact_mod_cast height_eq_h fb (Or.inl h)
    rw [hline_rot0_eq fb x0 y len0 color h]
    dsimp only
    split_ifs
    all_goals try exact LogExt_refl fb
    all_goals try dsimp only at *
    all_goals apply hline_phys_logext fb _ _ _ _ hdp
    all_goals omega
  · have hnor : ¬(fb.rot = 0 ∨ fb.rot = 180) := by rw [h]; decide
    have hwc : (fb.width : ℤ) = (fb.phys_h : ℤ) := by
      exact_mod_cast width_eq_h fb hnor
    have hhc : (fb.height : ℤ) = (fb.phys_w : ℤ) := by
      exact_mod_cast height_eq_w fb hnor
    rw [hline_rot90_eq fb x0 y len0 color h]
    dsimp only
    split_ifs
    all_goals try exact LogExt_refl fb
    all_goals try dsimp only at *
    all_goals apply vline_phys_logext fb _ _ _ _ hdp
    all_goals omega
  · have hwc : (fb.width : ℤ) = (fb.phys_w : ℤ) := by
      exact_mod_cast width_eq_w fb (Or.inr h)
    have hhc : (fb.height : ℤ) = (fb.phys_h : ℤ) := by
      exact_mod_cast height_eq_h fb (Or.inr h)
    rw [hline_rot180_eq fb x0 y len0 color h]
    dsimp only
    split_ifs
    all_goals try exact LogExt_refl fb
    all_goals try dsimp only at *
    all_goals apply hline_phys_logext fb _ _ _ _ hdp
    all_goals omega
  · have hnor : ¬(fb.rot = 0 ∨ fb.rot = 180) := by rw [h]; decide
    have hwc : (fb.width : ℤ) = (fb.phys_h : ℤ) := by
      exact_mod_cast width_eq_h fb hnor
    have hhc : (fb.height : ℤ) = (fb.phys_w : ℤ) := by
      exact_mod_cast height_eq_w fb hnor
    rw [hline_rot270_eq fb x0 y len0 color h]
    dsimp only
    split_ifs
    all_goals try exact LogExt_refl fb
    all_goals try dsimp only at *
    all_goals apply vline_phys_logext fb _ _ _ _ hdp
    all_goals omega

/-- vline is totally safe. -/
lemma vline_logext (fb : FB) (x y0 len0 : Int) (color : Nat)
    (hr : validRot fb.rot)
    (hdp : fb.depth = 1 ∧ fb.phys_w % 8 = 0 ∨ fb.depth = 2) :
    LogExt fb (fb.vline x y0 len0 color) := by
  rcases hr with h | h | h | h
  · have hwc : (fb.width : ℤ) = (fb.phys_w : ℤ) := by
      exact_mod_cast width_eq_w fb (Or.inl h)
    have hhc : (fb.height : ℤ) = (fb.phys_h : ℤ) := by
      exact_mod_cast height_eq_h fb (Or.inl h)
    rw [vline_rot0_eq fb x y0 len0 color h]
    dsimp only
    split_ifs
    all_goals try exact LogExt_refl fb
    all_goals try dsimp only at *
    all_goals apply vline_phys_logext fb _ _ _ _ hdp
    all_goals omega
  · have hnor : ¬(fb.rot = 0 ∨ fb.rot = 180) := by rw [h]; decide
    have hwc : (fb.width : ℤ) = (fb.phys_h : ℤ) := by
      exact_mod_cast width_eq_h fb hnor
    have hhc : (fb.height : ℤ) = (fb.phys_w : ℤ) := by
      exact_mod_cast height_eq_w fb hnor
    rw [vline_rot90_eq fb x y0 len0 color h]
    dsimp only
    split_ifs
    all_goals try exact LogExt_refl fb
    all_goals try dsimp only at *
    all_goals apply hline_phys_logext fb _ _ _ _ hdp
    all_goals omega
  · have hwc : (fb.width : ℤ) = (fb.phys_w : ℤ) := by
      exact_mod_cast width_eq_w fb (Or.inr h)
    have hhc : (fb.height : ℤ) = (fb.phys_h : ℤ) := by
      exact_mod_cast height_eq_h fb (Or.inr h)
    rw [vline_rot180_eq fb x y0 len0 color h]
    dsimp only
    split_ifs
    all_goals try exact LogExt_refl fb
    all_goals try dsimp only at *
    all_goals apply vline_phys_logext fb _ _ _ _ hdp
    all_goals omega
  · have hnor : ¬(fb.rot = 0 ∨ fb.rot = 180) := by rw [h]; decide
    have hwc : (fb.width : ℤ) = (fb.phys_h : ℤ) := by
      exact_mod_cast width_eq_h fb hnor
    have hhc : (fb.height : ℤ) = (fb.phys_w : ℤ) := by
      exact_mod_cast height_eq_w fb hnor
    rw [vline_rot270_eq fb x y0 len0 color h]
    dsimp only
    split_ifs
    all_goals try exact LogExt_refl fb
    all_goals try dsimp only at *
    all_goals apply hline_phys_logext fb _ _ _ _ hdp
    all_goals omega

/-- fill_rect is totally safe (one clipped hline per row). -/
lemma fill_rect_logext (fb : FB) (x0 y0 w0 h0 : Int) (color : Nat)
    (hr : validRot fb.rot)
    (hdp : fb.depth = 1 ∧ fb.phys_w % 8 = 0 ∨ fb.depth = 2) :
    LogExt fb (fb.fill_rect x0 y0 w0 h0 color) := by
  unfold FB.fill_rect
  dsimp only
  split_ifs
  all_goals try exact LogExt_refl fb
  all_goals apply foldl_logext
  all_goals intro f row hrow e1 e2 e3 e4
  all_goals exact hline_logext f _ _ _ _ (by rw [e4]; exact hr) (depth_hyp_transfer hdp e3 e1)

/-- An outcode of 0 means the point is inside the clip window. -/
lemma outcode_eq_zero {xmin xmax ymin ymax x y : Int}
    (h : outcode xmin xmax ymin ymax x y = 0) :
    xmin ≤ x ∧ x ≤ xmax ∧ ymin ≤ y ∧ y ≤ ymax := by
  unfold outcode at h
  split_ifs at h
  all_goals first
    | exact absurd h (by decide)
    | exact ⟨by omega, by omega, by omega, by omega⟩

/-- Or of two nibbles is zero only when both are. -/
lemma or16_eq_zero : ∀ a < 16, ∀ b < 16, a ||| b = 0 → a = 0 ∧ b = 0 := by
  decide

/-- Outcodes are 4-bit values. -/
lemma outcode_lt16 (xmin xmax ymin ymax x y : Int) :
    outcode xmin xmax ymin ymax x y < 16 := by
  unfold outcode
  split_ifs <;> decide

/-- Every endpoint pair the clipping loop accepts lies in the window. -/
lemma clipLoop_some_inbox (xmin xmax ymin ymax : Int) :
    ∀ (n : Nat) (x0 y0 x1 y1 : Int) (r : Int × Int × Int × Int),
      clipLoop xmin xmax ymin ymax n x0 y0 x1 y1 = some r →
      (xmin ≤ r.1 ∧ r.1 ≤ xmax ∧ ymin ≤ r.2.1 ∧ r.2.1 ≤ ymax ∧
       xmin ≤ r.2.2.1 ∧ r.2.2.1 ≤ xmax ∧ ymin ≤ r.2.2.2 ∧ r.2.2.2 ≤ ymax) := by
  intro n
  induction n with
  | zero =>
    intro x0 y0 x1 y1 r h
    exact absurd h (by rw [clipLoop]; exact Option.noConfusion)
  | succ n ih =>
    intro x0 y0 x1 y1 r h
    rw [clipLoop] at h
    dsimp only at h
    by_cases h1 : outcode xmin xmax ymin ymax x0 y0 |||
        outcode xmin xmax ymin ymax x1 y1 = 0
    · rw [if_pos h1] at h
      obtain ⟨ho0, ho1⟩ := or16_eq_zero _ (outcode_lt16 xmin xmax ymin ymax x0 y0)
        _ (outcode_lt16 xmin xmax ymin ymax x1 y1) h1
      obtain ⟨a1, a2, a3, a4⟩ := outcode_eq_zero ho0
      obtain ⟨b1, b2, b3, b4⟩ := outcode_eq_zero ho1
      rw [Option.some.injEq] at h
      subst h
      exact ⟨a1, a2, a3, a4, b1, b2, b3, b4⟩
    · rw [if_neg h1] at h
      by_cases h2 : outcode xmin xmax ymin ymax x0 y0 &&&
          outcode xmin xmax ymin ymax x1 y1 ≠ 0
      · rw [if_pos h2] at h
        exact absurd h (by simp)
      · rw [if_neg h2] at h
        split_ifs at h
        all_goals exact ih _ _ _ _ r h

/-- bresPlot body at rotation 0. -/
lemma bresPlot_rot0_eq (fb : FB) (steep : Bool) (x y : Int) (eff : Nat)
    (h : fb.rot = 0) :
    fb.bresPlot steep x y eff =
      (let l := if steep then (y, x) else (x, y)
       if fb.depth = 1 then fb.set_pixel_1bit (l.1) (l.2) eff
       else fb.set_pixel_2bit (l.1) (l.2) eff) := by
  unfold FB.bresPlot
  rw [h]
  rfl

/-- bresPlot body at rotation 90. -/
lemma bresPlot_rot90_eq (fb : FB) (steep : Bool) (x y : Int) (eff : Nat)
    (h : fb.rot = 90) :
    fb.bresPlot steep x y eff =
      (let l := if steep then (y, x) else (x, y)
       if fb.depth = 1 then fb.set_pixel_1bit ((fb.phys_w : Int) - 1 - l.2) (l.1) eff
       else fb.set_pixel_2bit ((fb.phys_w : Int) - 1 - l.2) (l.1) eff) := by
  unfold FB.bresPlot
  rw [h]
  rfl

/-- bresPlot body at rotation 180. -/
lemma bresPlot_rot180_eq (fb : FB) (steep : Bool) (x y : Int) (eff : Nat)
    (h : fb.rot = 180) :
    fb.bresPlot steep x y eff =
      (let l := if steep then (y, x) else (x, y)
       if fb.depth = 1 then fb.set_pixel_1bit ((fb.phys_w : Int) - 1 - l.1) ((fb.phys_h : Int) - 1 - l.2) eff
       else fb.set_pixel_2bit ((fb.phys_w : Int) - 1 - l.1) ((fb.phys_h : Int) - 1 - l.2) eff) := by
  unfold FB.bresPlot
  rw [h]
  rfl

/-- bresPlot body at rotation 270. -/
lemma bresPlot_rot270_eq (fb : FB) (steep : Bool) (x y : Int) (eff : Nat)
    (h : fb.rot = 270) :
    fb.bresPlot steep x y eff =
      (let l := if steep then (y, x) else (x, y)
       if fb.depth = 1 then fb.set_pixel_1bit (l.2) ((fb.phys_h : Int) - 1 - l.1) eff
       else fb.set_pixel_2bit (l.2) ((fb.phys_h : Int) - 1 - l.1) eff) := by
  unfold FB.bresPlot
  rw [h]
  rfl

/-- The inner Bresenham plot is safe when the un-swapped logical point is
in bounds. -/
lemma bresPlot_logext (fb : FB) (steep : Bool) (x y : Int) (eff : Nat)
    (hr : validRot fb.rot)
    (hdp : fb.depth = 1 ∧ fb.phys_w % 8 = 0 ∨ fb.depth = 2)
    (h1 : 0 ≤ (if steep then y else x))
    (h2 : (if steep then y else x) < (fb.width : Int))
    (h3 : 0 ≤ (if steep then x else y))
    (h4 : (if steep then x else y) < (fb.height : Int)) :
    LogExt fb (fb.bresPlot steep x y eff) := by
  have hl1 : (if steep then (y, x) else (x, y)).1 = (if steep then y else x) := by
    cases steep <;> rfl
  have hl2 : (if steep then (y, x) else (x, y)).2 = (if steep then x else y) := by
    cases steep <;> rfl
  rcases hr with h | h | h | h
  · have hwc : (fb.width : ℤ) = (fb.phys_w : ℤ) := by
      exact_mod_cast width_eq_w fb (Or.inl h)
    have hhc : (fb.height : ℤ) = (fb.phys_h : ℤ) := by
      exact_mod_cast height_eq_h fb (Or.inl h)
    rw [bresPlot_rot0_eq fb steep x y eff h]
    dsimp only
    rw [hl1, hl2]
    exact set_pixel_dispatch_logext fb _ _ _ hdp (by omega) (by omega)
      (by omega) (by omega)
  · have hnor : ¬(fb.rot = 0 ∨ fb.rot = 180) := by rw [h]; decide
    have hwc : (fb.width : ℤ) = (fb.phys_h : ℤ) := by
      exact_mod_cast width_eq_h fb hnor
    have hhc : (fb.height : ℤ) = (fb.phys_w : ℤ) := by
      exact_mod_cast height_eq_w fb hnor
    rw [bresPlot_rot90_eq fb steep x y eff h]
    dsimp only
    rw [hl1, hl2]
    exact set_pixel_dispatch_logext fb _ _ _ hdp (by omega) (by omega)
      (by omega) (by omega)
  · have hwc : (fb.width : ℤ) = (fb.phys_w : ℤ) := by
      exact_mod_cast width_eq_w fb (Or.inr h)
    have hhc : (fb.height : ℤ) = (fb.phys_h : ℤ) := by
      exact_mod_cast height_eq_h fb (Or.inr h)
    rw [bresPlot_rot180_eq fb steep x y eff h]
    dsimp only
    rw [hl1, hl2]
    exact set_pixel_dispatch_logext fb _ _ _ hdp (by omega) (by omega)
      (by omega) (by omega)
  · have hnor : ¬(fb.rot = 0 ∨ fb.rot = 180) := by rw [h]; decide
    have hwc : (fb.width : ℤ) = (fb.phys_h : ℤ) := by
      exact_mod_cast width_eq_h fb hnor
    have hhc : (fb.height : ℤ) = (fb.phys_w : ℤ) := by
      exact_mod_cast height_eq_w fb hnor
    rw [bresPlot_rot270_eq fb steep x y eff h]
    dsimp only
    rw [hl1, hl2]
    exact set_pixel_dispatch_logext fb _ _ _ hdp (by omega) (by omega)
      (by omega) (by omega)

/-- Logical width transfers along geometry equality. -/
lemma width_congr {a b : FB} (e1 : b.phys_w = a.phys_w)
    (e2 : b.phys_h = a.phys_h) (e4 : b.rot = a.rot) : b.width = a.width := by
  unfold FB.width
  rw [e1, e2, e4]

lemma height_congr {a b : FB} (e1 : b.phys_w = a.phys_w)
    (e2 : b.phys_h = a.phys_h) (e4 : b.rot = a.rot) : b.height = a.height := by
  unfold FB.height
  rw [e1, e2, e4]

lemma row_bytes_congr {a b : FB} (e1 : b.phys_w = a.phys_w)
    (e3 : b.depth = a.depth) : b.row_bytes = a.row_bytes := by
  unfold FB.row_bytes
  rw [e1, e3]

/-- The Bresenham walk never leaves the sorted bounding box: the step
counter s stays at most dy because once s = dy the error term
err - dy = dx/2 + dy*(dx-k-1) is nonnegative before the last column. -/
lemma bresLoop_logext (a : FB) (steep : Bool) (eff : Nat)
    (dy dx ystep X0 Y0 : Int)
    (hdy : 0 ≤ dy) (hdx : 0 ≤ dx)
    (hys : ystep = 1 ∨ ystep = -1)
    (hplot : ∀ (g : FB) (u v : Int),
      g.phys_w = a.phys_w → g.phys_h = a.phys_h → g.depth = a.depth →
      g.rot = a.rot → X0 ≤ u → u ≤ X0 + dx →
      (0 ≤ v - Y0 ∧ v - Y0 ≤ ystep * dy) ∨
        (ystep * dy ≤ v - Y0 ∧ v - Y0 ≤ 0) →
      LogExt g (g.bresPlot steep u v eff)) :
    ∀ (n : Nat) (k s x y err : Int) (fb : FB),
      fb.phys_w = a.phys_w → fb.phys_h = a.phys_h → fb.depth = a.depth →
      fb.rot = a.rot →
      k + (n : Int) = dx + 1 → 0 ≤ k → 0 ≤ s → s ≤ dy →
      x = X0 + k → y = Y0 + ystep * s →
      err = Int.fdiv dx 2 - k * dy + s * dx →
      LogExt fb (bresLoop steep eff dy dx ystep n x y err fb) := by
  intro n
  induction n with
  | zero =>
    intro k s x y err fb e1 e2 e3 e4 hk hk0 hs0 hs1 hx hy herr
    rw [bresLoop]
    exact LogExt_refl fb
  | succ n ih =>
    intro k s x y err fb e1 e2 e3 e4 hk hk0 hs0 hs1 hx hy herr
    rw [bresLoop]
    have hvr : (0 ≤ y - Y0 ∧ y - Y0 ≤ ystep * dy) ∨
        (ystep * dy ≤ y - Y0 ∧ y - Y0 ≤ 0) := by
      have hyd : y - Y0 = ystep * s := by rw [hy]; ring
      rcases hys with h1 | h1
      · left
        rw [h1] at hyd ⊢
        constructor <;> omega
      · right
        rw [h1] at hyd ⊢
        constructor <;> omega
    have hplotted : LogExt fb (fb.bresPlot steep x y eff) :=
      hplot fb x y e1 e2 e3 e4 (by omega) (by omega) hvr
    split_ifs with he
    · rcases Nat.eq_zero_or_pos n with hn0 | hnpos
      · subst hn0
        rw [bresLoop]
        exact hplotted
      · have hfd : 0 ≤ Int.fdiv dx 2 := Int.fdiv_nonneg hdx (by norm_num)
        have hslt : s < dy := by
          by_contra hge
          have hseq : s = dy := by omega
          have hmul : 0 ≤ dy * (dx - k - 1) := mul_nonneg hdy (by omega)
          have hE : err - dy = Int.fdiv dx 2 + dy * (dx - k - 1) := by
            rw [herr, hseq]
            ring
          omega
        refine LogExt_trans hplotted (ih (k + 1) (s + 1) (x + 1) (y + ystep)
          (err - dy + dx) (fb.bresPlot steep x y eff)
          (hplotted.1.trans e1) (hplotted.2.1.trans e2)
          (hplotted.2.2.1.trans e3) (hplotted.2.2.2.1.trans e4)
          (by omega) (by omega) (by omega) (by omega)
          (by omega) (by rw [hy]; ring) (by rw [herr]; ring))
    · refine LogExt_trans hplotted (ih (k + 1) s (x + 1) y
        (err - dy) (fb.bresPlot steep x y eff)
        (hplotted.1.trans e1) (hplotted.2.1.trans e2)
        (hplotted.2.2.1.trans e3) (hplotted.2.2.2.1.trans e4)
        (by omega) (by omega) (by omega) (by omega)
        (by omega) hy (by rw [herr]; ring))

/-- Running the Bresenham walk from sorted in-box endpoints is safe. -/
lemma bres_run_logext (fb : FB) (eff : Nat) (steep : Bool)
    (x0 y0 x1 y1 : Int)
    (hr : validRot fb.rot)
    (hdp : fb.depth = 1 ∧ fb.phys_w % 8 = 0 ∨ fb.depth = 2)
    (hx01 : x0 ≤ x1) (hxlo : 0 ≤ x0)
    (hxhi : x1 < (if steep then (fb.height : Int) else (fb.width : Int)))
    (hylo : 0 ≤ y0)
    (hyhi : y0 < (if steep then (fb.width : Int) else (fb.height : Int)))
    (hylo1 : 0 ≤ y1)
    (hyhi1 : y1 < (if steep then (fb.width : Int) else (fb.height : Int))) :
    LogExt fb (bresLoop steep eff (((y1 - y0).natAbs : Nat) : Int) (x1 - x0)
      (if y0 < y1 then (1 : Int) else -1) (x1 + 1 - x0).toNat x0 y0
      (Int.fdiv (x1 - x0) 2) fb) := by
  have hyd : (if y0 < y1 then (1 : Int) else -1) *
      (((y1 - y0).natAbs : Nat) : Int) = y1 - y0 := by
    by_cases h : y0 < y1
    · rw [if_pos h]; omega
    · rw [if_neg h]; omega
  have hys : (if y0 < y1 then (1 : Int) else -1) = 1 ∨
      (if y0 < y1 then (1 : Int) else -1) = -1 := by
    by_cases h : y0 < y1
    · exact Or.inl (if_pos h)
    · exact Or.inr (if_neg h)
  refine bresLoop_logext fb steep eff _ _ _ x0 y0 (by omega) (by omega) hys
    ?_ _ 0 0 x0 y0 _ fb rfl rfl rfl rfl (by omega) (by omega) (by omega)
    (by omega) (by omega) (by ring) (by ring)
  intro g u v e1 e2 e3 e4 hu1 hu2 hv
  have hwcg : (g.width : ℤ) = (fb.width : ℤ) := by
    exact_mod_cast width_congr e1 e2 e4
  have hhcg : (g.height : ℤ) = (fb.height : ℤ) := by
    exact_mod_cast height_congr e1 e2 e4
  cases steep with
  | false =>
    have hx1W : x1 < (fb.width : ℤ) := hxhi
    have hy0H : y0 < (fb.height : ℤ) := hyhi
    have hy1H : y1 < (fb.height : ℤ) := hyhi1
    exact bresPlot_logext g false u v eff (by rw [e4]; exact hr)
      (depth_hyp_transfer hdp e3 e1) (show (0 : ℤ) ≤ u by omega)
      (show u < (g.width : ℤ) by omega) (show (0 : ℤ) ≤ v by omega)
      (show v < (g.height : ℤ) by omega)
  | true =>
    have hx1H : x1 < (fb.height : ℤ) := hxhi
    have hy0W : y0 < (fb.width : ℤ) := hyhi
    have hy1W : y1 < (fb.width : ℤ) := hyhi1
    exact bresPlot_logext g true u v eff (by rw [e4]; exact hr)
      (depth_hyp_transfer hdp e3 e1) (show (0 : ℤ) ≤ v by omega)
      (show v < (g.width : ℤ) by omega) (show (0 : ℤ) ≤ u by omega)
      (show u < (g.height : ℤ) by omega)

/-- line is totally safe: the Cohen-Sutherland clip leaves both endpoints
inside the window and the Bresenham walk stays in their bounding box. -/
lemma line_logext (fb : FB) (ax ay bx by2 : Int) (color : Nat)
    (hr : validRot fb.rot)
    (hdp : fb.depth = 1 ∧ fb.phys_w % 8 = 0 ∨ fb.depth = 2) :
    LogExt fb (fb.line ax ay bx by2 color) := by
  unfold FB.line
  dsimp only
  rcases hclip : clipLoop 0 ((fb.width : Int) - 1) 0 ((fb.height : Int) - 1)
      8 ax ay bx by2 with _ | r
  · exact LogExt_refl fb
  · obtain ⟨cx0, cy0, cx1, cy1⟩ := r
    have hbox := clipLoop_some_inbox 0 ((fb.width : Int) - 1) 0
      ((fb.height : Int) - 1) 8 ax ay bx by2 (cx0, cy0, cx1, cy1) hclip
    obtain ⟨hA1, hA2, hA3, hA4, hB1, hB2, hB3, hB4⟩ := hbox
    dsimp only at hA1 hA2 hA3 hA4 hB1 hB2 hB3 hB4
    dsimp only
    by_cases hst : (cy1 - cy0).natAbs > (cx1 - cx0).natAbs
    · rw [if_pos hst]
      have hdec : decide ((cy1 - cy0).natAbs > (cx1 - cx0).natAbs) = true :=
        decide_eq_true hst
      rw [hdec]
      dsimp only
      by_cases hs2 : cy0 > cy1
      · rw [if_pos hs2]
        dsimp only
        exact bres_run_logext fb _ true cy1 cx1 cy0 cx0 hr hdp (by omega)
          (by omega) (show cy0 < (fb.height : Int) by omega) (by omega)
          (show cx1 < (fb.width : Int) by omega) (by omega)
          (show cx0 < (fb.width : Int) by omega)
      · rw [if_neg hs2]
        dsimp only
        exact bres_run_logext fb _ true cy0 cx0 cy1 cx1 hr hdp (by omega)
          (by omega) (show cy1 < (fb.height : Int) by omega) (by omega)
          (show cx0 < (fb.width : Int) by omega) (by omega)
          (show cx1 < (fb.width : Int) by omega)
    · rw [if_neg hst]
      have hdec : decide ((cy1 - cy0).natAbs > (cx1 - cx0).natAbs) = false :=
        decide_eq_false hst
      rw [hdec]
      dsimp only
      by_cases hs2 : cx0 > cx1
      · rw [if_pos hs2]
        dsimp only
        exact bres_run_logext fb _ false cx1 cy1 cx0 cy0 hr hdp (by omega)
          (by omega) (show cx0 < (fb.width : Int) by omega) (by omega)
          (show cy1 < (fb.height : Int) by omega) (by omega)
          (show cy0 < (fb.height : Int) by omega)
      · rw [if_neg hs2]
        dsimp only
        exact bres_run_logext fb _ false cx0 cy0 cx1 cy1 hr hdp (by omega)
          (by omega) (show cx1 < (fb.width : Int) by omega) (by omega)
          (show cy0 < (fb.height : Int) by omega) (by omega)
          (show cy1 < (fb.height : Int) by omega)

/-- blit_1bit body at rotation 0. -/
lemma blit_1bit_rot0_eq (fb : FB) (bmp : Nat → Nat) (eff : Nat)
    (w x y r_start r_end c_start c_end : Int) (h : fb.rot = 0) :
    fb.blit_1bit bmp eff w x y r_start r_end c_start c_end =
      (List.range (r_end - r_start).toNat).foldl (fun f (k : Nat) =>
        (List.range (c_end - c_start).toNat).foldl (fun g (j : Nat) =>
          if bmp ((r_start + (k : Int)) * Int.fdiv (w + 7) 8 +
              Int.fdiv (c_start + (j : Int)) 8).toNat &&&
              (0x80 >>> ((c_start + (j : Int)) % 8).toNat) = 0
          then g
          else
            if eff ≠ 0 then
              writeByte g ((y + (r_start + (k : Int)) * 1) * (f.row_bytes : Int) + Int.fdiv (x + (c_start + (j : Int)) * 1) 8)
                (fun b => b ||| bitMask (x + (c_start + (j : Int)) * 1))
            else
              writeByte g ((y + (r_start + (k : Int)) * 1) * (f.row_bytes : Int) + Int.fdiv (x + (c_start + (j : Int)) * 1) 8)
                (fun b => b &&& invMask (x + (c_start + (j : Int)) * 1))) f) fb := by
  unfold FB.blit_1bit
  rw [h]
  rfl

/-- blit_1bit body at rotation 90. -/
lemma blit_1bit_rot90_eq (fb : FB) (bmp : Nat → Nat) (eff : Nat)
    (w x y r_start r_end c_start c_end : Int) (h : fb.rot = 90) :
    fb.blit_1bit bmp eff w x y r_start r_end c_start c_end =
      (List.range (r_end - r_start).toNat).foldl (fun f (k : Nat) =>
        (List.range (c_end - c_start).toNat).foldl (fun g (j : Nat) =>
          if bmp ((r_start + (k : Int)) * Int.fdiv (w + 7) 8 +
              Int.fdiv (c_start + (j : Int)) 8).toNat &&&
              (0x80 >>> ((c_start + (j : Int)) % 8).toNat) = 0
          then g
          else
            if eff ≠ 0 then
              writeByte g ((x + (c_start + (j : Int)) * 1) * (g.row_bytes : Int) + Int.fdiv ((fb.phys_w : Int) - 1 - y + (r_start + (k : Int)) * -1) 8)
                (fun b => b ||| bitMask ((fb.phys_w : Int) - 1 - y + (r_start + (k : Int)) * -1))
            else
              writeByte g ((x + (c_start + (j : Int)) * 1) * (g.row_bytes : Int) + Int.fdiv ((fb.phys_w : Int) - 1 - y + (r_start + (k : Int)) * -1) 8)
                (fun b => b &&& invMask ((fb.phys_w : Int) - 1 - y + (r_start + (k : Int)) * -1))) f) fb := by
  unfold FB.blit_1bit
  rw [h]
  rfl

/-- blit_1bit body at rotation 180. -/
lemma blit_1bit_rot180_eq (fb : FB) (bmp : Nat → Nat) (eff : Nat)
    (w x y r_start r_end c_start c_end : Int) (h : fb.rot = 180) :
    fb.blit_1bit bmp eff w x y r_start r_end c_start c_end =
      (List.range (r_end - r_start).toNat).foldl (fun f (k : Nat) =>
        (List.range (c_end - c_start).toNat).foldl (fun g (j : Nat) =>
          if bmp ((r_start + (k : Int)) * Int.fdiv (w + 7) 8 +
              Int.fdiv (c_start + (j : Int)) 8).toNat &&&
              (0x80 >>> ((c_start + (j : Int)) % 8).toNat) = 0
          then g
          else
            if eff ≠ 0 then
              writeByte g (((fb.phys_h : Int) - 1 - y + (r_start + (k : Int)) * -1) * (f.row_bytes : Int) + Int.fdiv ((fb.phys_w : Int) - 1 - x + (c_start + (j : Int)) * -1) 8)
                (fun b => b ||| bitMask ((fb.phys_w : Int) - 1 - x + (c_start + (j : Int)) * -1))
            else
              writeByte g (((fb.phys_h : Int) - 1 - y + (r_start + (k : Int)) * -1) * (f.row_bytes : Int) + Int.fdiv ((fb.phys_w : Int) - 1 - x + (c_start + (j : Int)) * -1) 8)
                (fun b => b &&& invMask ((fb.phys_w : Int) - 1 - x + (c_start + (j : Int)) * -1))) f) fb := by
  unfold FB.blit_1bit
  rw [h]
  rfl

/-- blit_1bit body at rotation 270. -/
lemma blit_1bit_rot270_eq (fb : FB) (bmp : Nat → Nat) (eff : Nat)
    (w x y r_start r_end c_start c_end : Int) (h : fb.rot = 270) :
    fb.blit_1bit bmp eff w x y r_start r_end c_start c_end =
      (List.range (r_end - r_start).toNat).foldl (fun f (k : Nat) =>
        (List.range (c_end - c_start).toNat).foldl (fun g (j : Nat) =>
          if bmp ((r_start + (k : Int)) * Int.fdiv (w + 7) 8 +
              Int.fdiv (c_start + (j : Int)) 8).toNat &&&
              (0x80 >>> ((c_start + (j : Int)) % 8).toNat) = 0
          then g
          else
            if eff ≠ 0 then
              writeByte g (((fb.phys_h : Int) - 1 - x + (c_start + (j : Int)) * -1) * (g.row_bytes : Int) + Int.fdiv (y + (r_start + (k : Int)) * 1) 8)
                (fun b => b ||| bitMask (y + (r_start + (k : Int)) * 1))
            else
              writeByte g (((fb.phys_h : Int) - 1 - x + (c_start + (j : Int)) * -1) * (g.row_bytes : Int) + Int.fdiv (y + (r_start + (k : Int)) * 1) 8)
                (fun b => b &&& invMask (y + (r_start + (k : Int)) * 1))) f) fb := by
  unfold FB.blit_1bit
  rw [h]
  rfl

/-- _blit_2bit is safe when the clipped rectangle is logically in
bounds. -/
lemma blit_2bit_logext (fb : FB) (bmp : Nat → Nat) (eff : Nat)
    (w x y r_start r_end c_start c_end : Int)
    (hr : validRot fb.rot)
    (hdp : fb.depth = 1 ∧ fb.phys_w % 8 = 0 ∨ fb.depth = 2)
    (hrs : 0 ≤ y + r_start) (hre : y + r_end ≤ (fb.height : Int))
    (hcs : 0 ≤ x + c_start) (hce : x + c_end ≤ (fb.width : Int)) :
    LogExt fb (fb.blit_2bit bmp eff w x y r_start r_end c_start c_end) := by
  unfold FB.blit_2bit
  dsimp only
  apply foldl_logext
  intro f k hk e1 e2 e3 e4
  have hk2 : (k : ℤ) < r_end - r_start := by
    have := List.mem_range.mp hk
    omega
  apply foldl_logext
  intro f2 j hj e1b e2b e3b e4b
  have hj2 : (j : ℤ) < c_end - c_start := by
    have := List.mem_range.mp hj
    omega
  split_ifs with hb
  · have hwc : (f2.width : ℤ) = (fb.width : ℤ) := by
      exact_mod_cast width_congr (e1b.trans e1) (e2b.trans e2) (e4b.trans e4)
    have hhc : (f2.height : ℤ) = (fb.height : ℤ) := by
      exact_mod_cast height_congr (e1b.trans e1) (e2b.trans e2) (e4b.trans e4)
    exact pixel_fast_logext f2 _ _ _ (by rw [e4b.trans e4]; exact hr)
      (depth_hyp_transfer hdp (e3b.trans e3) (e1b.trans e1))
      (by omega) (by omega) (by omega) (by omega)
  · exact LogExt_refl f2

/-- _blit_1bit is safe when the clipped rectangle is logically in
bounds (depth 1, byte-aligned width). -/
lemma blit_1bit_logext (fb : FB) (bmp : Nat → Nat) (eff : Nat)
    (w x y r_start r_end c_start c_end : Int)
    (hr : validRot fb.rot) (hd1 : fb.depth = 1) (hw8 : fb.phys_w % 8 = 0)
    (hrs : 0 ≤ y + r_start) (hre : y + r_end ≤ (fb.height : Int))
    (hcs : 0 ≤ x + c_start) (hce : x + c_end ≤ (fb.width : Int)) :
    LogExt fb (fb.blit_1bit bmp eff w x y r_start r_end c_start c_end) := by
  have hrbw : (fb.phys_w : ℤ) = 8 * (fb.row_bytes : ℤ) := by
    have : fb.phys_w = 8 * fb.row_bytes := by
      unfold FB.row_bytes
      rw [hd1]
      omega
    exact_mod_cast this
  rcases hr with h | h | h | h
  · have hwc : (fb.width : ℤ) = (fb.phys_w : ℤ) := by
      exact_mod_cast width_eq_w fb (Or.inl h)
    have hhc : (fb.height : ℤ) = (fb.phys_h : ℤ) := by
      exact_mod_cast height_eq_h fb (Or.inl h)
    rw [blit_1bit_rot0_eq fb bmp eff w x y r_start r_end c_start c_end h]
    apply foldl_logext
    intro f k hk e1 e2 e3 e4
    have hk2 : (k : ℤ) < r_end - r_start := by
      have := List.mem_range.mp hk
      omega
    apply foldl_logext
    intro g j hj e1b e2b e3b e4b
    have hj2 : (j : ℤ) < c_end - c_start := by
      have := List.mem_range.mp hj
      omega
    have hrbf : (f.row_bytes : ℤ) = (fb.row_bytes : ℤ) := by
      exact_mod_cast row_bytes_congr e1 e3
    split_ifs
    all_goals try exact LogExt_refl g
    all_goals refine writeByte_logext' fb g _ _ (e1b.trans e1) (e2b.trans e2) (e3b.trans e3) ?_
    all_goals rw [hrbf]
    all_goals refine row_idx_inRange fb _ _ hd1 hw8 ?_ ?_ ?_ ?_
    all_goals try rw [Int.fdiv_eq_ediv _ (by norm_num)]
    all_goals omega
  · have hnor : ¬(fb.rot = 0 ∨ fb.rot = 180) := by rw [h]; decide
    have hwc : (fb.width : ℤ) = (fb.phys_h : ℤ) := by
      exact_mod_cast width_eq_h fb hnor
    have hhc : (fb.height : ℤ) = (fb.phys_w : ℤ) := by
      exact_mod_cast height_eq_w fb hnor
    rw [blit_1bit_rot90_eq fb bmp eff w x y r_start r_end c_start c_end h]
    apply foldl_logext
    intro f k hk e1 e2 e3 e4
    have hk2 : (k : ℤ) < r_end - r_start := by
      have := List.mem_range.mp hk
      omega
    apply foldl_logext
    intro g j hj e1b e2b e3b e4b
    have hj2 : (j : ℤ) < c_end - c_start := by
      have := List.mem_range.mp hj
      omega
    have hrbf : (g.row_bytes : ℤ) = (fb.row_bytes : ℤ) := by
      exact_mod_cast row_bytes_congr (e1b.trans e1) (e3b.trans e3)
    split_ifs
    all_goals try exact LogExt_refl g
    all_goals refine writeByte_logext' fb g _ _ (e1b.trans e1) (e2b.trans e2) (e3b.trans e3) ?_
    all_goals rw [hrbf]
    all_goals refine row_idx_inRange fb _ _ hd1 hw8 ?_ ?_ ?_ ?_
    all_goals try rw [Int.fdiv_eq_ediv _ (by norm_num)]
    all_goals omega
  · have hwc : (fb.width : ℤ) = (fb.phys_w : ℤ) := by
      exact_mod_cast width_eq_w fb (Or.inr h)
    have hhc : (fb.height : ℤ) = (fb.phys_h : ℤ) := by
      exact_mod_cast height_eq_h fb (Or.inr h)
    rw [blit_1bit_rot180_eq fb bmp eff w x y r_start r_end c_start c_end h]
    apply foldl_logext
    intro f k hk e1 e2 e3 e4
    have hk2 : (k : ℤ) < r_end - r_start := by
      have := List.mem_range.mp hk
      omega
    apply foldl_logext
    intro g j hj e1b e2b e3b e4b
    have hj2 : (j : ℤ) < c_end - c_start := by
      have := List.mem_range.mp hj
      omega
    have hrbf : (f.row_bytes : ℤ) = (fb.row_bytes : ℤ) := by
      exact_mod_cast row_bytes_congr e1 e3
    split_ifs
    all_goals try exact LogExt_refl g
    all_goals refine writeByte_logext' fb g _ _ (e1b.trans e1) (e2b.trans e2) (e3b.trans e3) ?_
    all_goals rw [hrbf]
    all_goals refine row_idx_inRange fb _ _ hd1 hw8 ?_ ?_ ?_ ?_
    all_goals try rw [Int.fdiv_eq_ediv _ (by norm_num)]
    all_goals omega
  · have hnor : ¬(fb.rot = 0 ∨ fb.rot = 180) := by rw [h]; decide
    have hwc : (fb.width : ℤ) = (fb.phys_h : ℤ) := by
      exact_mod_cast width_eq_h fb hnor
    have hhc : (fb.height : ℤ) = (fb.phys_w : ℤ) := by
      exact_mod_cast height_eq_w fb hnor
    rw [blit_1bit_rot270_eq fb bmp eff w x y r_start r_end c_start c_end h]
    apply foldl_logext
    intro f k hk e1 e2 e3 e4
    have hk2 : (k : ℤ) < r_end - r_start := by
      have := List.mem_range.mp hk
      omega
    apply foldl_logext
    intro g j hj e1b e2b e3b e4b
    have hj2 : (j : ℤ) < c_end - c_start := by
      have := List.mem_range.mp hj
      omega
    have hrbf : (g.row_bytes : ℤ) = (fb.row_bytes : ℤ) := by
      exact_mod_cast row_bytes_congr (e1b.trans e1) (e3b.trans e3)
    split_ifs
    all_goals try exact LogExt_refl g
    all_goals refine writeByte_logext' fb g _ _ (e1b.trans e1) (e2b.trans e2) (e3b.trans e3) ?_
    all_goals rw [hrbf]
    all_goals refine row_idx_inRange fb _ _ hd1 hw8 ?_ ?_ ?_ ?_
    all_goals try rw [Int.fdiv_eq_ediv _ (by norm_num)]
    all_goals omega

/-- blit is totally safe: the clip rectangle r_start..r_end x
c_start..c_end keeps every touched pixel logically in bounds. -/
lemma blit_logext (fb : FB) (bmp : Nat → Nat) (x y w h : Int) (color : Nat)
    (hr : validRot fb.rot)
    (hdp : fb.depth = 1 ∧ fb.phys_w % 8 = 0 ∨ fb.depth = 2) :
    LogExt fb (fb.blit bmp x y w h color) := by
  unfold FB.blit
  dsimp only
  split_ifs with g1 g2 gd
  · exact LogExt_refl fb
  · exact LogExt_refl fb
  · rcases hdp with ⟨hd1, hw8⟩ | hd2
    · exact blit_1bit_logext fb bmp _ w x y _ _ _ _ hr hd1 hw8 (by omega)
        (by omega) (by omega) (by omega)
    · exact absurd gd (by omega)
  · exact blit_2bit_logext fb bmp _ w x y _ _ _ _ hr hdp (by omega)
      (by omega) (by omega) (by omega)

/-- C5: for every rotation in {0, 90, 180, 270}, every depth in {1, 2}
(with the byte-aligned physical width the spec's phys_w/8 stride
presumes for 1-bit buffers), and all integer arguments, the drawing
primitives pixel, hline, vline, line, fill_rect and blit preserve the
buffer geometry and every byte index they write (as recorded by the
write log) lies in [0, buffer_size): out-of-range logical pixels are
clipped or rejected, never stored. -/
theorem c5_drawing_memory_safety (fb : FB)
    (hr : validRot fb.rot)
    (hdp : fb.depth = 1 ∧ fb.phys_w % 8 = 0 ∨ fb.depth = 2) :
    (∀ x y c, LogExt fb (fb.pixel x y c)) ∧
    (∀ x y l c, LogExt fb (fb.hline x y l c)) ∧
    (∀ x y l c, LogExt fb (fb.vline x y l c)) ∧
    (∀ x0 y0 x1 y1 c, LogExt fb (fb.line x0 y0 x1 y1 c)) ∧
    (∀ x y w h c, LogExt fb (fb.fill_rect x y w h c)) ∧
    (∀ bmp x y w h c, LogExt fb (fb.blit bmp x y w h c)) :=
  ⟨fun x y c => pixel_logext fb x y c hr hdp,
   fun x y l c => hline_logext fb x y l c hr hdp,
   fun x y l c => vline_logext fb x y l c hr hdp,
   fun x0 y0 x1 y1 c => line_logext fb x0 y0 x1 y1 c hr hdp,
   fun x y w h c => fill_rect_logext fb x y w h c hr hdp,
   fun bmp x y w h c => blit_logext fb bmp x y w h c hr hdp⟩

/-- Witness: the 128 x 296 rotation-90 1-bit buffer with a line whose
endpoints lie far outside the viewport. -/
theorem c5_drawing_memory_safety_witness :
    validRot sampleFB.rot ∧
      LogExt sampleFB (sampleFB.line (-5) (-3) 400 200 1) :=
  ⟨Or.inr (Or.inl rfl),
   (c5_drawing_memory_safety sampleFB (Or.inr (Or.inl rfl))
     (Or.inl ⟨rfl, rfl⟩)).2.2.2.1 (-5) (-3) 400 200 1⟩

end Magtag
